import Mathlib

/-!
Verification of the homebox item import/export engine
(`backend/api/views.py`, `ItemViewSet.import_json` / `import_csv` /
`export_json` / `export_csv`, together with the entity model of
`backend/api/models.py`).

The development shallowly embeds the engine over a single-user entity
store: Django rows become Lean structures, the per-record loop bodies
become programs in a state-plus-exception monad `PyM` (state is kept on
an exception, exactly as Python locals and committed database writes
survive a raised exception), and the field coercions Django applies at
`save()` time are modelled per column type.  UUID identities are
modelled by a counter supply; timestamps by a `now : Nat` parameter.
-/

set_option autoImplicit false

namespace Homebox

/-! Calendar dates (Python `datetime.date`). -/

structure Date where
  year : Nat
  month : Nat
  day : Nat
deriving DecidableEq, Repr

def isLeapYear (y : Nat) : Bool :=
  (y % 4 == 0 && y % 100 != 0) || y % 400 == 0

def daysInMonth (y m : Nat) : Nat :=
  if m = 2 then (if isLeapYear y then 29 else 28)
  else if m = 4 ∨ m = 6 ∨ m = 9 ∨ m = 11 then 30
  else 31

/-- A real calendar date in the range `datetime` accepts (year 1..9999). -/
def Date.valid (d : Date) : Bool :=
  1 ≤ d.year && d.year ≤ 9999 && 1 ≤ d.month && d.month ≤ 12 &&
    1 ≤ d.day && d.day ≤ daysInMonth d.year d.month

def mkValidDate (y m d : Nat) : Option Date :=
  if (Date.mk y m d).valid then some ⟨y, m, d⟩ else none

/-! Decimal digit strings. -/

def digitChar (n : Nat) : Char := Char.ofNat (48 + n)

def isDigitCh (c : Char) : Bool := 48 ≤ c.toNat && c.toNat ≤ 57

def digitVal (c : Char) : Nat := c.toNat - 48

/-- Value of a nonempty all-digit character list, `none` otherwise. -/
def parseNatList (l : List Char) : Option Nat :=
  if !l.isEmpty && l.all isDigitCh then
    some (l.foldl (fun a c => 10 * a + digitVal c) 0)
  else none

/-- Decimal digits of a natural number, most significant first (Python `str(int)`). -/
def natDigits (n : Nat) : List Char :=
  if _h : n < 10 then [digitChar n]
  else natDigits (n / 10) ++ [digitChar (n % 10)]
termination_by n
decreasing_by exact Nat.div_lt_self (by omega) (by omega)

/-- Python `str` of an int. -/
def intStr (i : Int) : String :=
  if i < 0 then ⟨'-' :: natDigits i.natAbs⟩ else ⟨natDigits i.natAbs⟩

/-- Zero-padded two-digit rendering (`%m`, `%d` in `strftime`). -/
def pad2L (n : Nat) : List Char := [digitChar (n / 10), digitChar (n % 10)]

/-- Zero-padded four-digit rendering (`%Y` in `strftime`). -/
def pad4L (n : Nat) : List Char := pad2L (n / 100) ++ pad2L (n % 100)

/-! Splitting a character list on a separator, used to model the
fixed-shape date formats of `strptime` and `fromisoformat`. -/

def splitOnCharAux (sep : Char) : List Char → List Char → List (List Char)
  | [], acc => [acc.reverse]
  | c :: cs, acc =>
    if c = sep then acc.reverse :: splitOnCharAux sep cs []
    else splitOnCharAux sep cs (c :: acc)

def splitOnChar (sep : Char) (l : List Char) : List (List Char) :=
  splitOnCharAux sep l []

/-- Model of `datetime.date.fromisoformat` and of the ISO date parsing Django
applies to string values of a `DateField`: exactly `YYYY-MM-DD` with
zero-padded components, validated as a real calendar date.  Extended ISO
inputs (week dates, trailing time parts) are outside the model; no claim
depends on them. -/
def fromisoformatDate (s : String) : Option Date :=
  match splitOnChar '-' s.data with
  | [y, m, d] =>
    if y.length == 4 && m.length == 2 && d.length == 2 then
      match parseNatList y, parseNatList m, parseNatList d with
      | some yn, some mn, some dn => mkValidDate yn mn dn
      | _, _, _ => none
    else none
  | _ => none

/-- Model of `datetime.datetime.strptime(s, "%Y-%m-%d").date()`: `%Y` matches
one to four digits, `%m` and `%d` one or two; the components must form a real
calendar date. -/
def strptimeYMD (s : String) : Option Date :=
  match splitOnChar '-' s.data with
  | [y, m, d] =>
    if 1 ≤ y.length && y.length ≤ 4 && 1 ≤ m.length && m.length ≤ 2 &&
        1 ≤ d.length && d.length ≤ 2 then
      match parseNatList y, parseNatList m, parseNatList d with
      | some yn, some mn, some dn => mkValidDate yn mn dn
      | _, _, _ => none
    else none
  | _ => none

/-- Model of `datetime.datetime.strptime(s, "%m/%d/%Y").date()`. -/
def strptimeMDY (s : String) : Option Date :=
  match splitOnChar '/' s.data with
  | [m, d, y] =>
    if 1 ≤ m.length && m.length ≤ 2 && 1 ≤ d.length && d.length ≤ 2 &&
        1 ≤ y.length && y.length ≤ 4 then
      match parseNatList y, parseNatList m, parseNatList d with
      | some yn, some mn, some dn => mkValidDate yn mn dn
      | _, _, _ => none
    else none
  | _ => none

/-- The date fallback chain of `import_csv`: try `%Y-%m-%d`, then `%m/%d/%Y`;
both failing leaves the field untouched. -/
def csvParseDate (s : String) : Option Date :=
  match strptimeYMD s with
  | some d => some d
  | none => strptimeMDY s

/-- Python `date.isoformat()` / `str(date)`. -/
def fmtYMD (d : Date) : String :=
  ⟨pad4L d.year ++ '-' :: pad2L d.month ++ '-' :: pad2L d.day⟩

/-- The same calendar date written `MM/DD/YYYY` (zero padded). -/
def fmtMDY (d : Date) : String :=
  ⟨pad2L d.month ++ '/' :: pad2L d.day ++ '/' :: pad4L d.year⟩

/-! Python-style whitespace stripping and numeric literals. -/

def isSpaceCh (c : Char) : Bool :=
  c == ' ' || c == '\t' || c == '\n' || c == '\r' || c == '\x0b' || c == '\x0c'

def trimCh (l : List Char) : List Char :=
  ((l.dropWhile isSpaceCh).reverse.dropWhile isSpaceCh).reverse

/-- Python `str.strip()`. -/
def pyStrip (s : String) : String := ⟨trimCh s.data⟩

/-- Python `str.split(',')` (single-character separator, empty pieces kept). -/
def splitCommas (s : String) : List String :=
  (splitOnChar ',' s.data).map (fun l => ⟨l⟩)

def lowerCh (c : Char) : Char :=
  if 'A' ≤ c ∧ c ≤ 'Z' then Char.ofNat (c.toNat + 32) else c

/-- Python `str.lower()` on the ASCII range (the only range the compared
literals use). -/
def pyLower (s : String) : String := ⟨s.data.map lowerCh⟩

/-- Python `int(s)`: surrounding whitespace is ignored, an optional sign is
followed by decimal digits; anything else raises `ValueError` (`none` here).
Underscore separators are not modelled; no claim depends on them. -/
def pyInt (s : String) : Option Int :=
  let t := trimCh s.data
  if t.head? = some '-' then (parseNatList t.tail).map (fun n => -(n : Int))
  else if t.head? = some '+' then (parseNatList t.tail).map (fun n => (n : Int))
  else (parseNatList t).map (fun n => (n : Int))

/-- Decimal numeral body `digits [. digits]`, `.digits` or `digits.` as a
rational. -/
def parseDecAux (l : List Char) : Option Rat :=
  match splitOnChar '.' l with
  | [ip] => (parseNatList ip).map (fun n => (n : Rat))
  | [ip, fp] =>
    if ip.isEmpty && fp.isEmpty then none
    else
      match (if ip.isEmpty then some 0 else parseNatList ip),
          (if fp.isEmpty then some 0 else parseNatList fp) with
      | some i, some f => some ((i : Rat) + (f : Rat) / ((10 : Rat) ^ fp.length))
      | _, _ => none
  | _ => none

/-- Python `float(s)` and `decimal.Decimal(s)` on the inputs this code meets:
surrounding whitespace ignored, optional sign, decimal digits with an optional
point.  Exponents, `inf` and `nan` are outside the model; no claim inspects a
decimal value, only whether parsing succeeds. -/
def pyFloat (s : String) : Option Rat :=
  let t := trimCh s.data
  if t.head? = some '-' then (parseDecAux t.tail).map (fun q => -q)
  else if t.head? = some '+' then parseDecAux t.tail
  else parseDecAux t

/-- Python `int()` truncation toward zero of a rational. -/
def ratTrunc (q : Rat) : Int := q.num.tdiv (q.den : Int)

/-- Textual rendering of a stored decimal for a CSV cell.  The precision
details of `str(Decimal)` (trailing zeros) are abstracted: no claim reads a
decimal cell back for its value, and a cell that fails to re-parse is skipped
by the importer rather than failing the record. -/
def decStr (q : Rat) : String :=
  if q.den = 1 then intStr q.num
  else intStr q.num ++ "/" ++ ⟨natDigits q.den⟩

/-! Python runtime values, as they sit in item attributes before `save()`. -/

/-- A Python value appearing in an item field during import: JSON scalars plus
parsed `date` objects.  Python `int` and `float` are collapsed into one
numeric constructor (`q.den = 1` recovers int-ness where it matters). -/
inductive PyVal where
  | vstr (s : String)
  | vnum (q : Rat)
  | vbool (b : Bool)
  | vdate (d : Date)
  | vnone
deriving DecidableEq, Repr

/-- Python truthiness of the modelled values. -/
def PyVal.truthy : PyVal → Bool
  | .vstr s => !(s == "")
  | .vnum q => !(q == 0)
  | .vbool b => b
  | .vdate _ => true
  | .vnone => false

/-! The entity store (`backend/api/models.py`), scoped to the single
requesting user: every operation in the import/export engine filters on
`user=request.user`, so one user's slice of each table is the whole state. -/

structure Location where
  id : Nat
  name : String
  description : String
deriving DecidableEq, Repr

structure Label where
  id : Nat
  name : String
  color : String
deriving DecidableEq, Repr

structure Currency where
  id : Nat
  code : String
  name : String
  symbol : String
deriving DecidableEq, Repr

/-- A persisted Item row.  `added_date`, `created_at`, `updated_at` and
`custom_fields` are outside the model (system timestamps and an opaque JSON
blob no claim reads); attachments and maintenance records live in their own
tables and are never touched by the importer. -/
structure Item where
  id : Nat
  name : String
  description : Option String
  quantity : Int
  important : Bool
  purchase_price : Option Rat
  purchase_currency : Option Nat
  purchase_date : Option Date
  purchase_from : Option String
  manufacturer : Option String
  model_number : Option String
  serial_number : Option String
  warranty_expires : Option Date
  warranty_info : Option String
  sold : Bool
  sold_date : Option Date
  sold_price : Option Rat
  sold_currency : Option Nat
  sold_to : Option String
  insured : Bool
  insured_value : Option Rat
  insured_currency : Option Nat
  insurance_details : Option String
  notes : Option String
  location : Option Nat
  labels : List Nat
deriving DecidableEq, Repr

/-- An ImportLog row in its final (completed) state.  File name and size are
outside the model; the log rows written at operation start and updated in
place are represented by their completed value. -/
structure ImportLog where
  import_type : String
  status : String
  items_created : Nat
  items_updated : Nat
  items_failed : Nat
  error_message : Option String
  completed_at : Option Nat
deriving DecidableEq, Repr

/-- The single-user slice of the database.  `nextId` models the uuid4 supply:
fresh identities are distinct from every id previously handed out. -/
structure Store where
  locations : List Location
  labels : List Label
  currencies : List Currency
  items : List Item
  logs : List ImportLog
  nextId : Nat
deriving DecidableEq, Repr

/-! The per-operation mutable state of the import loop: the running counters
and error list of `import_json` / `import_csv`, plus the store. -/

structure LoopSt where
  store : Store
  created : Nat
  updated : Nat
  failed : Nat
  errors : List String
deriving DecidableEq, Repr

/-- State-plus-exception monad for the loop bodies: the state (Python locals
and committed database writes) survives a raised exception, exactly as in the
source, so a catch sees the mutations made before the raise. -/
def PyM (α : Type) : Type := LoopSt → LoopSt × Except String α

instance : Monad PyM where
  pure a := fun s => (s, .ok a)
  bind m f := fun s =>
    match m s with
    | (s', .ok a) => f a s'
    | (s', .error e) => (s', .error e)

def PyM.throw {α : Type} (e : String) : PyM α := fun s => (s, .error e)

def PyM.getStore : PyM Store := fun s => (s, .ok s.store)

def PyM.setStore (st : Store) : PyM Unit := fun s => ({ s with store := st }, .ok ())

def PyM.incCreated : PyM Unit := fun s => ({ s with created := s.created + 1 }, .ok ())

def PyM.incUpdated : PyM Unit := fun s => ({ s with updated := s.updated + 1 }, .ok ())

def liftE {α : Type} : Except String α → PyM α
  | .ok a => pure a
  | .error e => PyM.throw e

/-! First-match lookups (Django `get` / `filter().first()` on the scoped
queryset).  Written with propositional ifs so `simp` can evaluate them on
records with concrete keys. -/

def findLocByName : List Location → String → Option Location
  | [], _ => none
  | l :: rest, nm => if l.name = nm then some l else findLocByName rest nm

def findLabelByName : List Label → String → Option Label
  | [], _ => none
  | l :: rest, nm => if l.name = nm then some l else findLabelByName rest nm

def findCurrByCode : List Currency → String → Option Currency
  | [], _ => none
  | c :: rest, cd => if c.code = cd then some c else findCurrByCode rest cd

def findItemById : List Item → Nat → Option Item
  | [], _ => none
  | it :: rest, i => if it.id = i then some it else findItemById rest i

def findLocById : List Location → Nat → Option Location
  | [], _ => none
  | l :: rest, i => if l.id = i then some l else findLocById rest i

def findLabelById : List Label → Nat → Option Label
  | [], _ => none
  | l :: rest, i => if l.id = i then some l else findLabelById rest i

def findCurrById : List Currency → Nat → Option Currency
  | [], _ => none
  | c :: rest, i => if c.id = i then some c else findCurrById rest i

/-! get-or-create reference resolution (views.py lines 412-465, 573-589,
608-694).  Django raises `MultipleObjectsReturned` when several rows match
the natural key; the stores these handlers build keep at most one row per
key, where `get` and first-match coincide, and the uniqueness-preservation
theorems below make that invariant explicit. -/

/-- `Location.objects.get_or_create(user=.., name=.., defaults={'description': ''})`. -/
def getOrCreateLocation (nm : String) : PyM Nat := do
  let st ← PyM.getStore
  match findLocByName st.locations nm with
  | some l => pure l.id
  | none =>
    let lid := st.nextId
    PyM.setStore { st with
      locations := st.locations ++ [⟨lid, nm, ""⟩], nextId := st.nextId + 1 }
    pure lid

/-- `Label.objects.get_or_create(user=.., name=.., defaults={'color': col})`. -/
def getOrCreateLabel (nm col : String) : PyM Nat := do
  let st ← PyM.getStore
  match findLabelByName st.labels nm with
  | some l => pure l.id
  | none =>
    let lid := st.nextId
    PyM.setStore { st with
      labels := st.labels ++ [⟨lid, nm, col⟩], nextId := st.nextId + 1 }
    pure lid

/-- `Currency.objects.get_or_create(user=.., code=.., defaults={'name': nm, 'symbol': sy})`. -/
def getOrCreateCurrency (cd nm sy : String) : PyM Nat := do
  let st ← PyM.getStore
  match findCurrByCode st.currencies cd with
  | some c => pure c.id
  | none =>
    let cid := st.nextId
    PyM.setStore { st with
      currencies := st.currencies ++ [⟨cid, cd, nm, sy⟩], nextId := st.nextId + 1 }
    pure cid

/-! In-memory item objects and `save()`.  A Python model instance holds raw
attribute values until `save()` coerces each one to its column type; a
coercion or constraint error aborts the whole write (Django prepares every
column before issuing the single INSERT/UPDATE statement). -/

/-- An unsaved `Item` instance: raw Python values per scalar column, resolved
foreign keys, and the (unchanged-by-save) many-to-many label set. -/
structure PendingItem where
  idSlot : Option Nat
  name : PyVal
  description : PyVal
  quantity : PyVal
  important : PyVal
  purchase_price : PyVal
  purchase_date : PyVal
  purchase_from : PyVal
  manufacturer : PyVal
  model_number : PyVal
  serial_number : PyVal
  warranty_expires : PyVal
  warranty_info : PyVal
  sold : PyVal
  sold_date : PyVal
  sold_price : PyVal
  sold_to : PyVal
  insured : PyVal
  insured_value : PyVal
  insurance_details : PyVal
  notes : PyVal
  location : Option Nat
  purchase_currency : Option Nat
  sold_currency : Option Nat
  insured_currency : Option Nat
  labels : List Nat
deriving DecidableEq, Repr

/-- A fresh `Item(user=request.user)`: Django field defaults (`''` for the
non-null CharField, `None` for nullable fields, `1` for quantity, `False`
for the flags). -/
def freshPending : PendingItem where
  idSlot := none
  name := .vstr ""
  description := .vnone
  quantity := .vnum 1
  important := .vbool false
  purchase_price := .vnone
  purchase_date := .vnone
  purchase_from := .vnone
  manufacturer := .vnone
  model_number := .vnone
  serial_number := .vnone
  warranty_expires := .vnone
  warranty_info := .vnone
  sold := .vbool false
  sold_date := .vnone
  sold_price := .vnone
  sold_to := .vnone
  insured := .vbool false
  insured_value := .vnone
  insurance_details := .vnone
  notes := .vnone
  location := none
  purchase_currency := none
  sold_currency := none
  insured_currency := none
  labels := []

def optStrVal : Option String → PyVal
  | some s => .vstr s
  | none => .vnone

def optDecVal : Option Rat → PyVal
  | some q => .vnum q
  | none => .vnone

def optDateObj : Option Date → PyVal
  | some d => .vdate d
  | none => .vnone

/-- The attribute values of a row fetched by `Item.objects.get(...)`, as the
update path of `import_json` sees them before `setattr` overrides. -/
def Item.toPending (it : Item) : PendingItem where
  idSlot := some it.id
  name := .vstr it.name
  description := optStrVal it.description
  quantity := .vnum (it.quantity : Rat)
  important := .vbool it.important
  purchase_price := optDecVal it.purchase_price
  purchase_date := optDateObj it.purchase_date
  purchase_from := optStrVal it.purchase_from
  manufacturer := optStrVal it.manufacturer
  model_number := optStrVal it.model_number
  serial_number := optStrVal it.serial_number
  warranty_expires := optDateObj it.warranty_expires
  warranty_info := optStrVal it.warranty_info
  sold := .vbool it.sold
  sold_date := optDateObj it.sold_date
  sold_price := optDecVal it.sold_price
  sold_to := optStrVal it.sold_to
  insured := .vbool it.insured
  insured_value := optDecVal it.insured_value
  insurance_details := optStrVal it.insurance_details
  notes := optStrVal it.notes
  location := it.location
  purchase_currency := it.purchase_currency
  sold_currency := it.sold_currency
  insured_currency := it.insured_currency
  labels := it.labels

/-! Save-time column coercions (Django `get_prep_value` per field type). -/

/-- Nullable `CharField`/`TextField`: `str()` of the value, `None` stays NULL;
never fails.  (SQLite does not enforce `max_length`.) -/
def prepText : PyVal → Option String
  | .vnone => none
  | .vstr s => some s
  | .vnum q => some (decStr q)
  | .vbool b => some (if b then "True" else "False")
  | .vdate d => some (fmtYMD d)

/-- The non-null `name` CharField: as `prepText` but NULL violates the NOT
NULL constraint. -/
def prepName : PyVal → Except String String
  | .vnone => .error "IntegrityError: NOT NULL constraint failed: api_item.name"
  | v => .ok ((prepText v).getD "")

/-- `quantity = PositiveIntegerField(default=1)`: `int()` coercion (ints and
floats truncate, numeric strings parse, booleans map to 0/1), NOT NULL, and
the `quantity >= 0` CHECK constraint Django emits for the field. -/
def prepQuantity : PyVal → Except String Int
  | .vnum q =>
    let n := ratTrunc q
    if 0 ≤ n then .ok n
    else .error "IntegrityError: CHECK constraint failed: quantity"
  | .vstr s =>
    match pyInt s with
    | some n =>
      if 0 ≤ n then .ok n
      else .error "IntegrityError: CHECK constraint failed: quantity"
    | none => .error ("ValueError: invalid literal for int() with base 10: " ++ s)
  | .vbool b => .ok (if b then 1 else 0)
  | .vdate _ => .error "TypeError: int() argument must not be a date"
  | .vnone => .error "IntegrityError: NOT NULL constraint failed: api_item.quantity"

/-- Non-null `BooleanField` (`BooleanField.to_python`): booleans pass, the
numbers equal to True/False pass, the literal strings `t`/`True`/`1` and
`f`/`False`/`0` pass, everything else is rejected. -/
def prepBool : PyVal → Except String Bool
  | .vbool b => .ok b
  | .vnum q =>
    if q == 0 then .ok false
    else if q == 1 then .ok true
    else .error "ValidationError: value must be either True or False"
  | .vstr s =>
    if s = "t" ∨ s = "True" ∨ s = "1" then .ok true
    else if s = "f" ∨ s = "False" ∨ s = "0" then .ok false
    else .error "ValidationError: value must be either True or False"
  | _ => .error "ValidationError: value must be either True or False"

/-- Nullable `DateField`: date objects pass, `None` stays NULL, strings are
parsed as ISO dates (`ValidationError` otherwise), anything else rejected. -/
def prepDate : PyVal → Except String (Option Date)
  | .vnone => .ok none
  | .vdate d => .ok (some d)
  | .vstr s =>
    match fromisoformatDate s with
    | some d => .ok (some d)
    | none => .error ("ValidationError: invalid date format: " ++ s)
  | _ => .error "ValidationError: invalid date value"

/-- Nullable `DecimalField`: numbers pass, decimal strings parse, `None`
stays NULL, anything else rejected. -/
def prepDec : PyVal → Except String (Option Rat)
  | .vnone => .ok none
  | .vnum q => .ok (some q)
  | .vstr s =>
    match pyFloat s with
    | some q => .ok (some q)
    | none => .error ("ValidationError: invalid decimal: " ++ s)
  | _ => .error "ValidationError: invalid decimal value"

/-- The results of the fallible column coercions of one `item.save()`. -/
structure PreppedScalars where
  nm : String
  qty : Int
  imp : Bool
  sld : Bool
  ins : Bool
  pdt : Option Date
  wex : Option Date
  sdt : Option Date
  ppr : Option Rat
  spr : Option Rat
  ivl : Option Rat
deriving DecidableEq, Repr

/-- The fallible column coercions of one `item.save()`, all performed before
any row is written. -/
def prepScalars (p : PendingItem) : Except String PreppedScalars := do
  let nm ← prepName p.name
  let qty ← prepQuantity p.quantity
  let imp ← prepBool p.important
  let sld ← prepBool p.sold
  let ins ← prepBool p.insured
  let pdt ← prepDate p.purchase_date
  let wex ← prepDate p.warranty_expires
  let sdt ← prepDate p.sold_date
  let ppr ← prepDec p.purchase_price
  let spr ← prepDec p.sold_price
  let ivl ← prepDec p.insured_value
  .ok ⟨nm, qty, imp, sld, ins, pdt, wex, sdt, ppr, spr, ivl⟩

/-- The row an `item.save()` writes, given the coerced scalar values. -/
def prepAssemble (iid : Nat) (p : PendingItem) (v : PreppedScalars) : Item where
  id := iid
  name := v.nm
  description := prepText p.description
  quantity := v.qty
  important := v.imp
  purchase_price := v.ppr
  purchase_currency := p.purchase_currency
  purchase_date := v.pdt
  purchase_from := prepText p.purchase_from
  manufacturer := prepText p.manufacturer
  model_number := prepText p.model_number
  serial_number := prepText p.serial_number
  warranty_expires := v.wex
  warranty_info := prepText p.warranty_info
  sold := v.sld
  sold_date := v.sdt
  sold_price := v.spr
  sold_currency := p.sold_currency
  sold_to := prepText p.sold_to
  insured := v.ins
  insured_value := v.ivl
  insured_currency := p.insured_currency
  insurance_details := prepText p.insurance_details
  notes := prepText p.notes
  location := p.location
  labels := p.labels

/-- All column coercions of one `item.save()`, before any row is written. -/
def prepItem (iid : Nat) (p : PendingItem) : Except String Item :=
  (prepScalars p).map (prepAssemble iid p)

/-- `item.save()`: a fresh instance takes a new uuid and INSERTs, an instance
with a pk UPDATEs its row in place; the write is all-or-nothing, and the
many-to-many label set is not part of it.  Returns the row id. -/
def saveItem (p : PendingItem) : PyM Nat := fun ls =>
  match p.idSlot with
  | some iid =>
    match prepItem iid p with
    | .ok it =>
      ({ ls with store := { ls.store with
          items := ls.store.items.map (fun o => if o.id = iid then it else o) } },
        .ok iid)
    | .error e => (ls, .error e)
  | none =>
    let iid := ls.store.nextId
    match prepItem iid p with
    | .ok it =>
      ({ ls with store := { ls.store with
          items := ls.store.items ++ [it], nextId := ls.store.nextId + 1 } },
        .ok iid)
    | .error e => (ls, .error e)

/-- `item.labels.clear()` followed by `item.labels.add(..)` for each resolved
label (or, in the CSV path, only the adds on a fresh empty set): collapsed
into one set-replacement, since no exception can occur between the
individual many-to-many writes in either handler. -/
def itemLabelsSet (iid : Nat) (ls : List Nat) : PyM Unit := fun s =>
  ({ s with store := { s.store with
      items := s.store.items.map (fun o => if o.id = iid then { o with labels := ls } else o) } },
    .ok ())

/-! JSON import records (`ItemViewSet.import_json`, views.py 380-540). -/

/-- One entry of the popped `labels` list: `name` is the value under the
`"name"` key when present (entries without it are skipped), `color` the value
under `"color"` (`.get('color', '#3498db')`). -/
structure LabelRef where
  name : Option String
  color : Option String
deriving DecidableEq, Repr

/-- A popped currency descriptor that passed the `data and 'code' in data`
guard, with its optional `name`/`symbol` defaults. -/
structure CurrRef where
  code : String
  name : Option String
  symbol : Option String
deriving DecidableEq, Repr

/-- The popped `id` value as the lookup sees it: a well-formed uuid string
(`valid`, always truthy) or a malformed one, for which
`Item.objects.get(id=...)` raises `ValidationError` rather than
`Item.DoesNotExist`. -/
inductive IdRef where
  | valid (n : Nat)
  | invalid (s : String)
deriving DecidableEq, Repr

def idTruthy : IdRef → Bool
  | .valid _ => true
  | .invalid s => !(s == "")

/-- The scalar Item attributes reachable by the `setattr` loop after the
reference fields, `id`, `attachments`, `maintenance_records`, `created_at`
and `updated_at` have been popped.  (`custom_fields` is a JSONField no claim
reads; keys that are not model fields set plain object attributes that
`save()` ignores, so neither is modelled.) -/
inductive ScalarField where
  | name
  | description
  | quantity
  | important
  | purchase_price
  | purchase_date
  | purchase_from
  | manufacturer
  | model_number
  | serial_number
  | warranty_expires
  | warranty_info
  | sold
  | sold_date
  | sold_price
  | sold_to
  | insured
  | insured_value
  | insurance_details
  | notes
deriving DecidableEq, Repr

/-- One decoded JSON import record.  `location` is `some nm` exactly when the
popped `"location"` value is a truthy dict carrying a `"name"` key with value
`nm`; the currency slots likewise require a truthy dict with a `"code"` key.
The remaining keys are the `scalars` association (dict keys are unique). -/
structure JsonRecord where
  location : Option String
  labels : List LabelRef
  purchase_currency : Option CurrRef
  sold_currency : Option CurrRef
  insured_currency : Option CurrRef
  idField : Option IdRef
  scalars : List (ScalarField × PyVal)
deriving DecidableEq, Repr

def assocGet : List (ScalarField × PyVal) → ScalarField → Option PyVal
  | [], _ => none
  | p :: rest, f => if p.1 = f then some p.2 else assocGet rest f

def assocSet : List (ScalarField × PyVal) → ScalarField → PyVal → List (ScalarField × PyVal)
  | [], _, _ => []
  | p :: rest, f, v =>
    (if p.1 = f then (p.1, v) else p) :: assocSet rest f v

/-- views.py 474-480, one date key: `if date_field in item_data and
item_data[date_field]:` then `datetime.datetime.fromisoformat(..).date()`
with only `ValueError` caught (the field becomes `None`); a truthy non-string
raises `TypeError`, which the per-record handler catches as a failure.  Falsy
values are left as they are. -/
def coerceDateEntry (v : PyVal) : Except String PyVal :=
  if v.truthy then
    match v with
    | .vstr s =>
      .ok (match fromisoformatDate s with
        | some d => .vdate d
        | none => .vnone)
    | _ => .error "TypeError: fromisoformat: argument must be str"
  else .ok v

def coerceDateField (sc : List (ScalarField × PyVal)) (f : ScalarField) :
    Except String (List (ScalarField × PyVal)) :=
  match assocGet sc f with
  | none => .ok sc
  | some v => (coerceDateEntry v).map (assocSet sc f)

def coerceAllDates (sc : List (ScalarField × PyVal)) :
    Except String (List (ScalarField × PyVal)) := do
  let sc1 ← coerceDateField sc .purchase_date
  let sc2 ← coerceDateField sc1 .warranty_expires
  coerceDateField sc2 .sold_date

/-- `setattr(item, key, value)` for one scalar key. -/
def setField (p : PendingItem) : ScalarField → PyVal → PendingItem
  | .name, v => { p with name := v }
  | .description, v => { p with description := v }
  | .quantity, v => { p with quantity := v }
  | .important, v => { p with important := v }
  | .purchase_price, v => { p with purchase_price := v }
  | .purchase_date, v => { p with purchase_date := v }
  | .purchase_from, v => { p with purchase_from := v }
  | .manufacturer, v => { p with manufacturer := v }
  | .model_number, v => { p with model_number := v }
  | .serial_number, v => { p with serial_number := v }
  | .warranty_expires, v => { p with warranty_expires := v }
  | .warranty_info, v => { p with warranty_info := v }
  | .sold, v => { p with sold := v }
  | .sold_date, v => { p with sold_date := v }
  | .sold_price, v => { p with sold_price := v }
  | .sold_to, v => { p with sold_to := v }
  | .insured, v => { p with insured := v }
  | .insured_value, v => { p with insured_value := v }
  | .insurance_details, v => { p with insurance_details := v }
  | .notes, v => { p with notes := v }

/-- The `for key, value in item_data.items(): setattr(item, key, value)` loop. -/
def applyScalars (p : PendingItem) (sc : List (ScalarField × PyVal)) : PendingItem :=
  sc.foldl (fun q kv => setField q kv.1 kv.2) p

/-- Resolved reference ids for one JSON record. -/
structure RefIds where
  loc : Option Nat
  labelIds : List Nat
  pc : Option Nat
  sc : Option Nat
  ic : Option Nat
deriving DecidableEq, Repr

def resolveLabels : List LabelRef → PyM (List Nat)
  | [] => pure []
  | lr :: rest =>
    match lr.name with
    | some nm => do
      let lid ← getOrCreateLabel nm (lr.color.getD "#3498db")
      let others ← resolveLabels rest
      pure (lid :: others)
    | none => resolveLabels rest

def resolveCurr : Option CurrRef → PyM (Option Nat)
  | none => pure none
  | some cr => do
    let cid ← getOrCreateCurrency cr.code (cr.name.getD cr.code) (cr.symbol.getD "")
    pure (some cid)

/-- views.py 408-465: the reference-resolution prefix of the JSON loop body,
in source order (location, labels, purchase/sold/insured currency). -/
def resolveRefs (r : JsonRecord) : PyM RefIds := do
  let loc ← match r.location with
    | some nm => do
      let lid ← getOrCreateLocation nm
      pure (some lid)
    | none => pure none
  let labelIds ← resolveLabels r.labels
  let pc ← resolveCurr r.purchase_currency
  let sc ← resolveCurr r.sold_currency
  let ic ← resolveCurr r.insured_currency
  pure ⟨loc, labelIds, pc, sc, ic⟩

/-- views.py 482-493: identity determination.  A truthy id is looked up under
the owner; a hit increments updated-count and yields the fetched instance, a
`DoesNotExist` falls through, a malformed uuid raises; without an instance a
fresh one is built and created-count incremented. -/
def findBase (idf : Option IdRef) : PyM PendingItem := do
  let found ← match idf with
    | some ref =>
      if idTruthy ref then
        match ref with
        | .valid n => do
          let st ← PyM.getStore
          match findItemById st.items n with
          | some it => do
            PyM.incUpdated
            pure (some it)
          | none => pure none
        | .invalid s => PyM.throw ("ValidationError: " ++ s ++ " is not a valid UUID")
      else pure none
    | none => pure none
  match found with
  | some it => pure it.toPending
  | none => do
    PyM.incCreated
    pure freshPending

/-- The body of `for item_data in json_data:` inside its `try` (views.py
407-508). -/
def processJsonRecord (r : JsonRecord) : PyM Unit := do
  let refs ← resolveRefs r
  let scalars ← liftE (coerceAllDates r.scalars)
  let base ← findBase r.idField
  let p := applyScalars base scalars
  let p := { p with
    location := refs.loc
    purchase_currency := refs.pc
    sold_currency := refs.sc
    insured_currency := refs.ic }
  let iid ← saveItem p
  itemLabelsSet iid refs.labelIds

/-- One loop iteration with its `except Exception` handler (views.py
510-512): a failure increments failed-count and appends the error text;
already-performed mutations are kept. -/
def runJsonRecord (r : JsonRecord) (ls : LoopSt) : LoopSt :=
  match processJsonRecord r ls with
  | (ls', .ok _) => ls'
  | (ls', .error e) => { ls' with failed := ls'.failed + 1, errors := ls'.errors ++ [e] }

def jsonLoop (rs : List JsonRecord) (ls : LoopSt) : LoopSt :=
  rs.foldl (fun s r => runJsonRecord r s) ls

/-- views.py 515: the completion status of a JSON import. -/
def importStatusJson (created updated failed : Nat) : String :=
  if failed = 0 then "Success"
  else if created + updated > 0 then "Partial Success"
  else "Failed"

/-- views.py 713: the completion status of a CSV import (written in terms of
created-count only). -/
def importStatusCsv (created failed : Nat) : String :=
  if failed = 0 then "Success"
  else if created > 0 then "Partial Success"
  else "Failed"

/-- views.py 519/717: `'\n'.join(error_messages[:10])` plus the suppressed
count suffix when more than 10 messages accumulated. -/
def logErrorText (msgs : List String) : String :=
  String.intercalate "\n" (msgs.take 10) ++
    (if msgs.length > 10 then
      "\n...and " ++ toString (msgs.length - 10) ++ " more errors"
    else "")

/-- Outcome of one import request: final store, the completed log row (absent
when the handler returned before creating one), the counters, the full
accumulated error list, and the `errors` field of the HTTP response. -/
structure ImportResult where
  store : Store
  log : Option ImportLog
  created : Nat
  updated : Nat
  failed : Nat
  errors : List String
  respErrors : Option (List String)
deriving DecidableEq, Repr

/-- `ItemViewSet.import_json` on an already-decoded JSON array.  An empty
(falsy) input returns 400 before any ImportLog is created; otherwise the log
row created at start is completed with the final counters, status, truncated
error text and completion timestamp. -/
def importJson (rs : List JsonRecord) (st : Store) (now : Nat) : ImportResult :=
  if rs.isEmpty then
    { store := st, log := none, created := 0, updated := 0, failed := 0,
      errors := [], respErrors := none }
  else
    let ls := jsonLoop rs ⟨st, 0, 0, 0, []⟩
    let log : ImportLog :=
      { import_type := "JSON Import"
        status := importStatusJson ls.created ls.updated ls.failed
        items_created := ls.created
        items_updated := ls.updated
        items_failed := ls.failed
        error_message := some (logErrorText ls.errors)
        completed_at := some now }
    { store := { ls.store with logs := ls.store.logs ++ [log] }
      log := some log
      created := ls.created
      updated := ls.updated
      failed := ls.failed
      errors := ls.errors
      respErrors := if ls.errors.isEmpty then none else some (ls.errors.take 10) }

/-! CSV import (`ItemViewSet.import_csv`, views.py 542-738).  A row is the
association of header names to cell strings that `csv.DictReader` yields;
`rowGet` is `row.get(key, default)` (absent columns give the default). -/

def CsvRow : Type := List (String × String)

def rowGet : CsvRow → String → String → String
  | [], _, dflt => dflt
  | p :: rest, k, dflt => if p.1 = k then p.2 else rowGet rest k dflt

/-- `row.get(key, '').lower() in ('yes', 'true', '1')` — note: no strip. -/
def csvBoolCell (s : String) : Bool :=
  let l := pyLower s
  l == "yes" || l == "true" || l == "1"

/-- Stripped cell parsed as a decimal, skipped (left at the default) on
`ValueError` — `try: item.x = float(cell) except ValueError: pass`. -/
def csvDecCell (s : String) : PyVal :=
  if s == "" then .vnone
  else
    match pyFloat s with
    | some q => .vnum q
    | none => .vnone

/-- Stripped cell parsed through the two-format fallback chain, skipped on
failure. -/
def csvDateCell (s : String) : PyVal :=
  if s == "" then .vnone
  else
    match csvParseDate s with
    | some d => .vdate d
    | none => .vnone

def getOrCreateCurrencyCell (cd : String) : PyM (Option Nat) :=
  if cd = "" then pure none
  else do
    let cid ← getOrCreateCurrency cd cd ""
    pure (some cid)

def csvLabelIds : List String → PyM (List Nat)
  | [] => pure []
  | nm :: rest => do
    let lid ← getOrCreateLabel nm "#3498db"
    let others ← csvLabelIds rest
    pure (lid :: others)

/-- The fresh `Item(user=request.user)` of the CSV path after all the cell
assignments of views.py 592-699: every text field stripped, booleans from
the `('yes','true','1')` membership test, prices and dates from their
skip-on-failure coercions, and the already-resolved references attached. -/
def csvPending (row : CsvRow) (qty : PyVal) (loc pc sc ic : Option Nat) : PendingItem :=
  { freshPending with
    name := .vstr (pyStrip (rowGet row "Name" ""))
    description := .vstr (pyStrip (rowGet row "Description" ""))
    quantity := qty
    important := .vbool (csvBoolCell (rowGet row "Important" ""))
    purchase_price := csvDecCell (pyStrip (rowGet row "Purchase Price" ""))
    purchase_date := csvDateCell (pyStrip (rowGet row "Purchase Date" ""))
    purchase_from := .vstr (pyStrip (rowGet row "Purchase From" ""))
    manufacturer := .vstr (pyStrip (rowGet row "Manufacturer" ""))
    model_number := .vstr (pyStrip (rowGet row "Model Number" ""))
    serial_number := .vstr (pyStrip (rowGet row "Serial Number" ""))
    notes := .vstr (pyStrip (rowGet row "Notes" ""))
    warranty_expires := csvDateCell (pyStrip (rowGet row "Warranty Expires" ""))
    warranty_info := .vstr (pyStrip (rowGet row "Warranty Info" ""))
    sold := .vbool (csvBoolCell (rowGet row "Sold" ""))
    sold_date := csvDateCell (pyStrip (rowGet row "Sold Date" ""))
    sold_price := csvDecCell (pyStrip (rowGet row "Sold Price" ""))
    sold_to := .vstr (pyStrip (rowGet row "Sold To" ""))
    insured := .vbool (csvBoolCell (rowGet row "Insured" ""))
    insured_value := csvDecCell (pyStrip (rowGet row "Insured Value" ""))
    insurance_details := .vstr (pyStrip (rowGet row "Insurance Details" ""))
    location := loc
    purchase_currency := pc
    sold_currency := sc
    insured_currency := ic }

/-- The body of `for row in reader:` inside its `try` (views.py 569-706), in
source order: resolve location and labels, coerce the quantity cell
(`int()` may raise `ValueError`), resolve each currency as its cell is
reached, build the fresh item from the remaining cells, save, attach
labels, and finally increment created-count. -/
def csvLocationStep (nm : String) : PyM (Option Nat) :=
  if nm = "" then pure none
  else do
    let lid ← getOrCreateLocation nm
    pure (some lid)

/-- views.py 597: `int(row.get('Quantity', 1)) if row.get('Quantity', '').strip()
else 1` — a blank or absent cell defaults to 1, a non-blank cell goes through
`int()`, whose `ValueError` is not caught locally. -/
def csvQuantityStep (row : CsvRow) : PyM PyVal :=
  if pyStrip (rowGet row "Quantity" "") = "" then pure (PyVal.vnum 1)
  else
    match pyInt (rowGet row "Quantity" "1") with
    | some n => pure (PyVal.vnum (n : Rat))
    | none =>
      PyM.throw ("ValueError: invalid literal for int() with base 10: " ++
        rowGet row "Quantity" "1")

def processCsvRow (row : CsvRow) : PyM Unit := do
  let loc ← csvLocationStep (pyStrip (rowGet row "Location" ""))
  let labelNames :=
    ((splitCommas (rowGet row "Labels" "")).map pyStrip).filter (fun s => !(s == ""))
  let labelIds ← csvLabelIds labelNames
  let qty ← csvQuantityStep row
  let pc ← getOrCreateCurrencyCell (pyStrip (rowGet row "Purchase Currency" ""))
  let sc ← getOrCreateCurrencyCell (pyStrip (rowGet row "Sold Currency" ""))
  let ic ← getOrCreateCurrencyCell (pyStrip (rowGet row "Insured Currency" ""))
  let iid ← saveItem (csvPending row qty loc pc sc ic)
  itemLabelsSet iid labelIds
  PyM.incCreated

/-- One CSV loop iteration with its handler (views.py 708-710): the error
message cites `items_created + items_failed` after the failed increment. -/
def runCsvRow (row : CsvRow) (ls : LoopSt) : LoopSt :=
  match processCsvRow row ls with
  | (ls', .ok _) => ls'
  | (ls', .error e) =>
    { ls' with
      failed := ls'.failed + 1
      errors := ls'.errors ++
        ["Error importing row " ++ toString (ls'.created + (ls'.failed + 1)) ++ ": " ++ e] }

def csvLoop (rows : List CsvRow) (ls : LoopSt) : LoopSt :=
  rows.foldl (fun s r => runCsvRow r s) ls

/-- `ItemViewSet.import_csv` on the parsed row list of an uploaded file. -/
def importCsv (rows : List CsvRow) (st : Store) (now : Nat) : ImportResult :=
  let ls := csvLoop rows ⟨st, 0, 0, 0, []⟩
  let log : ImportLog :=
    { import_type := "CSV Import"
      status := importStatusCsv ls.created ls.failed
      items_created := ls.created
      items_updated := ls.updated
      items_failed := ls.failed
      error_message := some (logErrorText ls.errors)
      completed_at := some now }
  { store := { ls.store with logs := ls.store.logs ++ [log] }
    log := some log
    created := ls.created
    updated := ls.updated
    failed := ls.failed
    errors := ls.errors
    respErrors := if ls.errors.isEmpty then none else some (ls.errors.take 10) }

/-! Exports (views.py 237-285 and 287-378). -/

def optStrCell : Option String → String
  | some s => s
  | none => ""

def optDecCell : Option Rat → String
  | some q => decStr q
  | none => ""

def optDateCell : Option Date → String
  | some d => fmtYMD d
  | none => ""

def locNameCell (st : Store) (o : Option Nat) : String :=
  match o.bind (findLocById st.locations) with
  | some l => l.name
  | none => ""

def currCodeCell (st : Store) (o : Option Nat) : String :=
  match o.bind (findCurrById st.currencies) with
  | some c => c.code
  | none => ""

def labelNames (st : Store) (ids : List Nat) : List String :=
  ids.filterMap (fun i => (findLabelById st.labels i).map (fun l => l.name))

/-- One CSV export row (views.py 254-270): `str()` of each attribute, empty
string for absent references, label names joined by `', '`.  The `Created
At` / `Updated At` columns carry timestamps outside the model and are never
read back by `import_csv`. -/
def exportCsvRowOf (st : Store) (it : Item) : CsvRow := [
  ("Name", it.name),
  ("Description", optStrCell it.description),
  ("Quantity", intStr it.quantity),
  ("Important", if it.important then "True" else "False"),
  ("Purchase Price", optDecCell it.purchase_price),
  ("Purchase Currency", currCodeCell st it.purchase_currency),
  ("Purchase Date", optDateCell it.purchase_date),
  ("Purchase From", optStrCell it.purchase_from),
  ("Manufacturer", optStrCell it.manufacturer),
  ("Model Number", optStrCell it.model_number),
  ("Serial Number", optStrCell it.serial_number),
  ("Notes", optStrCell it.notes),
  ("Warranty Expires", optDateCell it.warranty_expires),
  ("Warranty Info", optStrCell it.warranty_info),
  ("Sold", if it.sold then "True" else "False"),
  ("Sold Date", optDateCell it.sold_date),
  ("Sold Price", optDecCell it.sold_price),
  ("Sold Currency", currCodeCell st it.sold_currency),
  ("Sold To", optStrCell it.sold_to),
  ("Insured", if it.insured then "True" else "False"),
  ("Insured Value", optDecCell it.insured_value),
  ("Insured Currency", currCodeCell st it.insured_currency),
  ("Insurance Details", optStrCell it.insurance_details),
  ("Location", locNameCell st it.location),
  ("Labels", String.intercalate ", " (labelNames st it.labels))]

/-- `ItemViewSet.export_csv`: one row per item of the scoped queryset, plus
one `CSV Export` ImportLog row written after the body. -/
def exportCsv (st : Store) (now : Nat) : Store × List CsvRow :=
  let rows := st.items.map (exportCsvRowOf st)
  let log : ImportLog :=
    { import_type := "CSV Export", status := "Success"
      items_created := 0, items_updated := 0, items_failed := 0
      error_message := none, completed_at := some now }
  ({ st with logs := st.logs ++ [log] }, rows)

/-- One JSON export document (views.py 293-360) in the collapsed record form
the importer reads: uuids as valid id refs, nested location (`id`+`name`) and
currencies (`id`+`code`+`symbol`, no `name` key), full scalar set with ISO
date strings, `float()` prices and `None` for absent values.  Attachments
and maintenance records are emitted by the source but popped unread by the
importer. -/
def exportJsonRecordOf (st : Store) (it : Item) : JsonRecord where
  location := (it.location.bind (findLocById st.locations)).map (fun l => l.name)
  labels := (it.labels.filterMap (findLabelById st.labels)).map
    (fun l => { name := some l.name, color := some l.color })
  purchase_currency := (it.purchase_currency.bind (findCurrById st.currencies)).map
    (fun c => { code := c.code, name := none, symbol := some c.symbol })
  sold_currency := (it.sold_currency.bind (findCurrById st.currencies)).map
    (fun c => { code := c.code, name := none, symbol := some c.symbol })
  insured_currency := (it.insured_currency.bind (findCurrById st.currencies)).map
    (fun c => { code := c.code, name := none, symbol := some c.symbol })
  idField := some (.valid it.id)
  scalars := [
    (.name, .vstr it.name),
    (.description, optStrVal it.description),
    (.quantity, .vnum (it.quantity : Rat)),
    (.important, .vbool it.important),
    (.purchase_price, optDecVal it.purchase_price),
    (.purchase_date, optStrVal (it.purchase_date.map fmtYMD)),
    (.purchase_from, optStrVal it.purchase_from),
    (.manufacturer, optStrVal it.manufacturer),
    (.model_number, optStrVal it.model_number),
    (.serial_number, optStrVal it.serial_number),
    (.warranty_expires, optStrVal (it.warranty_expires.map fmtYMD)),
    (.warranty_info, optStrVal it.warranty_info),
    (.sold, .vbool it.sold),
    (.sold_date, optStrVal (it.sold_date.map fmtYMD)),
    (.sold_price, optDecVal it.sold_price),
    (.sold_to, optStrVal it.sold_to),
    (.insured, .vbool it.insured),
    (.insured_value, optDecVal it.insured_value),
    (.insurance_details, optStrVal it.insurance_details),
    (.notes, optStrVal it.notes)]

/-- `ItemViewSet.export_json`: the document list plus one `JSON Export`
ImportLog row. -/
def exportJson (st : Store) (now : Nat) : Store × List JsonRecord :=
  let recs := st.items.map (exportJsonRecordOf st)
  let log : ImportLog :=
    { import_type := "JSON Export", status := "Success"
      items_created := 0, items_updated := 0, items_failed := 0
      error_message := none, completed_at := some now }
  ({ st with logs := st.logs ++ [log] }, recs)

/-- The scalar association a JSON export emits, abstracted over the three
date entries (`exportJsonRecordOf st it` uses the ISO strings; after the
importer's date pre-coercion they hold date objects or `None`). -/
def exportScalarsWith (it : Item) (pd we sd : PyVal) : List (ScalarField × PyVal) := [
  (.name, .vstr it.name),
  (.description, optStrVal it.description),
  (.quantity, .vnum (it.quantity : Rat)),
  (.important, .vbool it.important),
  (.purchase_price, optDecVal it.purchase_price),
  (.purchase_date, pd),
  (.purchase_from, optStrVal it.purchase_from),
  (.manufacturer, optStrVal it.manufacturer),
  (.model_number, optStrVal it.model_number),
  (.serial_number, optStrVal it.serial_number),
  (.warranty_expires, we),
  (.warranty_info, optStrVal it.warranty_info),
  (.sold, .vbool it.sold),
  (.sold_date, sd),
  (.sold_price, optDecVal it.sold_price),
  (.sold_to, optStrVal it.sold_to),
  (.insured, .vbool it.insured),
  (.insured_value, optDecVal it.insured_value),
  (.insurance_details, optStrVal it.insurance_details),
  (.notes, optStrVal it.notes)]

/-! Predicates and helpers used by the theorem statements. -/

/-- The uuid4 supply really is fresh: every id already in the store is below
the counter.  Every store reachable from an empty one satisfies this, and
each operation preserves it. -/
def Store.freshIds (st : Store) : Prop :=
  (∀ l ∈ st.locations, l.id < st.nextId) ∧
  (∀ l ∈ st.labels, l.id < st.nextId) ∧
  (∀ c ∈ st.currencies, c.id < st.nextId) ∧
  (∀ it ∈ st.items, it.id < st.nextId)

/-- Number of locations carrying a given name. -/
def countLocName (locs : List Location) (nm : String) : Nat :=
  (locs.filter (fun l => l.name == nm)).length

/-- How many stored labels carry a given name. -/
def countLabelName (labs : List Label) (nm : String) : Nat :=
  (labs.filter (fun l => l.name == nm)).length

/-- How many stored currencies carry a given code. -/
def countCurrCode (curs : List Currency) (cd : String) : Nat :=
  (curs.filter (fun c => c.code == cd)).length

/-- At most one location per name (the uniqueness the design note in the
spec asks the store to enforce; reachable stores satisfy it). -/
def uniqLocNames (locs : List Location) : Prop :=
  ∀ nm, countLocName locs nm ≤ 1

/-- Well-formedness of a stored item: the quantity respects the CHECK
constraint and the stored dates are real calendar dates — both hold for
every row the importer itself writes. -/
def Item.wf (it : Item) : Prop :=
  0 ≤ it.quantity ∧
  (∀ d, it.purchase_date = some d → d.valid = true) ∧
  (∀ d, it.warranty_expires = some d → d.valid = true) ∧
  (∀ d, it.sold_date = some d → d.valid = true)

/-- The identity-relevant signature of an item row: its id and the ids list
of the store are what re-import by id looks up. -/
def itemIds (items : List Item) : List Nat := items.map (fun it => it.id)

/-- Relation between loop states recording that a step only resolved or
created reference entities: counters, errors, item rows and logs are
untouched, and the uuid supply only moves forward. -/
def RefOnly (ls ls1 : LoopSt) : Prop :=
  ls1.created = ls.created ∧ ls1.updated = ls.updated ∧ ls1.failed = ls.failed ∧
  ls1.errors = ls.errors ∧ ls1.store.items = ls.store.items ∧
  ls1.store.logs = ls.store.logs ∧ ls.store.nextId ≤ ls1.store.nextId ∧
  (ls.store.freshIds → ls1.store.freshIds)

/-- The identity-relevant signature of an item row: id, quantity and the
three dates — the fields re-import by id must find and may not corrupt. -/
def itemSig (it : Item) : Nat × Int × Option Date × Option Date × Option Date :=
  (it.id, it.quantity, it.purchase_date, it.warranty_expires, it.sold_date)

/-- An empty single-user store. -/
def emptyStore : Store := ⟨[], [], [], [], [], 0⟩

/-- Initial loop state over a store. -/
def initLoop (st : Store) : LoopSt := ⟨st, 0, 0, 0, []⟩

/-! Concrete inputs used by counterexamples and witnesses. -/

/-- A JSON record that creates a Location and then fails at `save()`
(quantity `"abc"` cannot be coerced by the IntegerField). -/
def recGarageBadQty : JsonRecord :=
  ⟨some "Garage", [], none, none, none, none,
    [(.name, .vstr "x"), (.quantity, .vstr "abc")]⟩

/-- A JSON record without id whose save fails: the create counter has
already been bumped when the failure is counted. -/
def recBadQty : JsonRecord :=
  ⟨none, [], none, none, none, none, [(.name, .vstr "y"), (.quantity, .vstr "zz")]⟩

/-- A CSV row with an unparseable quantity cell. -/
def rowBadQty : CsvRow := [("Name", "n"), ("Quantity", "abc")]

/-- A JSON record carrying an `MM/DD/YYYY` purchase date. -/
def recSlashDate : JsonRecord :=
  ⟨none, [], none, none, none, none,
    [(.name, .vstr "z"), (.purchase_date, .vstr "03/05/2024")]⟩

/-- A CSV row referencing a location named Garage. -/
def rowGarage : CsvRow := [("Name", "a"), ("Location", "Garage")]

/-- A one-item store for witnesses. -/
def wItem : Item :=
  ⟨10, "Bike", none, 2, false, none, none, some ⟨2024, 3, 5⟩, none, none, none, none,
    none, none, false, none, none, none, none, false, none, none, none, none, none, []⟩

def wStore : Store := ⟨[], [], [], [wItem], [], 100⟩

/-! Theorems.  First the equational and arithmetic toolbox, then the
program-level lemmas, then one theorem (with counterexample/witness) per
specification claim. -/

theorem PyM.bind_def {α β : Type} (m : PyM α) (f : α → PyM β) (s : LoopSt) :
    (m >>= f) s = match m s with
      | (s', .ok a) => f a s'
      | (s', .error e) => (s', .error e) := rfl

theorem PyM.pure_def {α : Type} (a : α) (s : LoopSt) :
    (pure a : PyM α) s = (s, .ok a) := rfl

/-! Digit-string facts. -/

theorem digitChar_spec : ∀ k : Fin 10,
    isDigitCh (digitChar k.val) = true ∧ digitVal (digitChar k.val) = k.val ∧
    digitChar k.val ≠ '-' ∧ digitChar k.val ≠ '/' ∧ digitChar k.val ≠ '+' ∧
    isSpaceCh (digitChar k.val) = false := by decide

theorem parse_pad2 : ∀ n : Fin 100, parseNatList (pad2L n.val) = some n.val := by decide

theorem pad2_digits : ∀ n : Fin 100, (pad2L n.val).all isDigitCh = true := by decide

theorem pad2_no_dash : ∀ n : Fin 100, ('-' ∈ pad2L n.val) → False := by decide

theorem pad2_no_slash : ∀ n : Fin 100, ('/' ∈ pad2L n.val) → False := by decide

theorem parse_pad2N (n : Nat) (h : n < 100) : parseNatList (pad2L n) = some n :=
  parse_pad2 ⟨n, h⟩

theorem foldl_digit_shift (l : List Char) (a : Nat) :
    l.foldl (fun b c => 10 * b + digitVal c) a =
      a * 10 ^ l.length + l.foldl (fun b c => 10 * b + digitVal c) 0 := by
  induction l generalizing a with
  | nil => simp
  | cons c cs ih =>
    simp only [List.foldl_cons, List.length_cons]
    rw [ih (10 * a + digitVal c), ih (10 * 0 + digitVal c)]
    ring

theorem parseNatList_value (l : List Char) (n : Nat)
    (h : parseNatList l = some n) :
    l.foldl (fun b c => 10 * b + digitVal c) 0 = n := by
  unfold parseNatList at h
  split at h
  · exact Option.some.inj h
  · exact absurd h (by simp)

theorem parse_append (xs ys : List Char) (x y : Nat)
    (hx : parseNatList xs = some x) (hy : parseNatList ys = some y) :
    parseNatList (xs ++ ys) = some (x * 10 ^ ys.length + y) := by
  have hxd : (!xs.isEmpty && xs.all isDigitCh) = true := by
    unfold parseNatList at hx; split at hx
    · assumption
    · exact absurd hx (by simp)
  have hyd : (!ys.isEmpty && ys.all isDigitCh) = true := by
    unfold parseNatList at hy; split at hy
    · assumption
    · exact absurd hy (by simp)
  have hne : (!(xs ++ ys).isEmpty && (xs ++ ys).all isDigitCh) = true := by
    simp only [Bool.and_eq_true, Bool.not_eq_true', List.isEmpty_eq_false_iff_exists_mem,
      List.all_eq_true, List.mem_append] at hxd hyd ⊢
    obtain ⟨⟨a, ha⟩, hxall⟩ := hxd
    obtain ⟨⟨b, hb⟩, hyall⟩ := hyd
    exact ⟨⟨a, Or.inl ha⟩, fun c hc => hc.elim (hxall c) (hyall c)⟩
  unfold parseNatList
  rw [if_pos hne, List.foldl_append, parseNatList_value xs x hx,
    foldl_digit_shift, parseNatList_value ys y hy]

theorem parse_pad4N (n : Nat) (h : n < 10000) : parseNatList (pad4L n) = some n := by
  have h1 : n / 100 < 100 := by omega
  have h2 : n % 100 < 100 := by omega
  have := parse_append (pad2L (n / 100)) (pad2L (n % 100)) (n / 100) (n % 100)
    (parse_pad2N _ h1) (parse_pad2N _ h2)
  rw [pad4L, this]
  congr 1
  simp [pad2L]
  omega

theorem pad4_no_dash (n : Nat) (h : n < 10000) : ('-' ∈ pad4L n) → False := by
  have h1 : n / 100 < 100 := by omega
  have h2 : n % 100 < 100 := by omega
  intro hm
  rcases List.mem_append.mp hm with hm | hm
  · exact pad2_no_dash ⟨n / 100, h1⟩ hm
  · exact pad2_no_dash ⟨n % 100, h2⟩ hm

theorem pad4_no_slash (n : Nat) (h : n < 10000) : ('/' ∈ pad4L n) → False := by
  have h1 : n / 100 < 100 := by omega
  have h2 : n % 100 < 100 := by omega
  intro hm
  rcases List.mem_append.mp hm with hm | hm
  · exact pad2_no_slash ⟨n / 100, h1⟩ hm
  · exact pad2_no_slash ⟨n % 100, h2⟩ hm

theorem pad2_length (n : Nat) : (pad2L n).length = 2 := rfl

theorem pad4_length (n : Nat) : (pad4L n).length = 4 := rfl

/-! Splitting lemmas. -/

theorem splitOnCharAux_no_sep (sep : Char) (xs : List Char) :
    ∀ acc, sep ∉ xs → splitOnCharAux sep xs acc = [acc.reverse ++ xs] := by
  induction xs with
  | nil => intro acc _; simp [splitOnCharAux]
  | cons c cs ih =>
    intro acc h
    have hc : c ≠ sep := fun e => h (e ▸ List.mem_cons_self c cs)
    have hcs : sep ∉ cs := fun m => h (List.mem_cons_of_mem c m)
    simp only [splitOnCharAux, if_neg hc, ih _ hcs, List.reverse_cons,
      List.append_assoc, List.cons_append, List.nil_append]

theorem splitOnCharAux_sep (sep : Char) (xs rest : List Char) :
    ∀ acc, sep ∉ xs →
      splitOnCharAux sep (xs ++ sep :: rest) acc =
        (acc.reverse ++ xs) :: splitOnCharAux sep rest [] := by
  induction xs with
  | nil => intro acc _; simp [splitOnCharAux]
  | cons c cs ih =>
    intro acc h
    have hc : c ≠ sep := fun e => h (e ▸ List.mem_cons_self c cs)
    have hcs : sep ∉ cs := fun m => h (List.mem_cons_of_mem c m)
    simp only [List.cons_append, splitOnCharAux, if_neg hc]
    rw [show cs.append (sep :: rest) = cs ++ sep :: rest from rfl, ih _ hcs]
    simp

theorem splitOnChar_three (sep : Char) (a b c : List Char)
    (ha : sep ∉ a) (hb : sep ∉ b) (hc : sep ∉ c) :
    splitOnChar sep (a ++ sep :: (b ++ sep :: c)) = [a, b, c] := by
  unfold splitOnChar
  rw [splitOnCharAux_sep sep a _ _ ha]
  rw [splitOnCharAux_sep sep b _ _ hb]
  rw [splitOnCharAux_no_sep sep c _ hc]
  simp

theorem splitOnChar_single (sep : Char) (l : List Char) (h : sep ∉ l) :
    splitOnChar sep l = [l] := by
  unfold splitOnChar
  rw [splitOnCharAux_no_sep sep l _ h]
  simp

/-! Date roundtrip lemmas. -/

theorem daysInMonth_le_31 (y m : Nat) : daysInMonth y m ≤ 31 := by
  unfold daysInMonth
  split
  · split <;> omega
  · split <;> omega

theorem Date.valid_bounds {d : Date} (h : d.valid = true) :
    1 ≤ d.year ∧ d.year ≤ 9999 ∧ 1 ≤ d.month ∧ d.month ≤ 12 ∧
      1 ≤ d.day ∧ d.day ≤ daysInMonth d.year d.month := by
  unfold Date.valid at h
  simp only [Bool.and_eq_true, decide_eq_true_eq] at h
  omega

theorem date_bounds {d : Date} (h : d.valid = true) :
    d.year < 10000 ∧ d.month < 100 ∧ d.day < 100 := by
  obtain ⟨_, _, _, _, _, h6⟩ := Date.valid_bounds h
  have := daysInMonth_le_31 d.year d.month
  omega

theorem mkValidDate_self (d : Date) (h : d.valid = true) :
    mkValidDate d.year d.month d.day = some d := by
  unfold mkValidDate
  rw [if_pos h]

theorem fmtYMD_data (d : Date) :
    (fmtYMD d).data = pad4L d.year ++ '-' :: (pad2L d.month ++ '-' :: pad2L d.day) := by
  show pad4L d.year ++ ('-' :: pad2L d.month) ++ ('-' :: pad2L d.day) = _
  simp

theorem fmtMDY_data (d : Date) :
    (fmtMDY d).data = pad2L d.month ++ '/' :: (pad2L d.day ++ '/' :: pad4L d.year) := by
  show pad2L d.month ++ ('/' :: pad2L d.day) ++ ('/' :: pad4L d.year) = _
  simp

theorem fromiso_fmtYMD (d : Date) (h : d.valid = true) :
    fromisoformatDate (fmtYMD d) = some d := by
  obtain ⟨hy, hm, hd⟩ := date_bounds h
  unfold fromisoformatDate
  rw [fmtYMD_data,
    splitOnChar_three '-' _ _ _ (pad4_no_dash _ hy) (pad2_no_dash ⟨_, hm⟩)
      (pad2_no_dash ⟨_, hd⟩)]
  simp only [pad4_length, pad2_length]
  rw [if_pos (by simp), parse_pad4N _ hy, parse_pad2N _ hm, parse_pad2N _ hd]
  exact mkValidDate_self d h

theorem strptimeYMD_fmtYMD (d : Date) (h : d.valid = true) :
    strptimeYMD (fmtYMD d) = some d := by
  obtain ⟨hy, hm, hd⟩ := date_bounds h
  unfold strptimeYMD
  rw [fmtYMD_data,
    splitOnChar_three '-' _ _ _ (pad4_no_dash _ hy) (pad2_no_dash ⟨_, hm⟩)
      (pad2_no_dash ⟨_, hd⟩)]
  simp only [pad4_length, pad2_length]
  rw [if_pos (by simp), parse_pad4N _ hy, parse_pad2N _ hm, parse_pad2N _ hd]
  exact mkValidDate_self d h

theorem dash_not_in_fmtMDY (d : Date) (h : d.valid = true) :
    '-' ∉ (fmtMDY d).data := by
  obtain ⟨hy, hm, hd⟩ := date_bounds h
  rw [fmtMDY_data]
  intro hmem
  simp only [List.mem_append, List.mem_cons] at hmem
  rcases hmem with hin | hsl | hin | hsl | hin
  · exact pad2_no_dash ⟨_, hm⟩ hin
  · exact absurd hsl (by decide)
  · exact pad2_no_dash ⟨_, hd⟩ hin
  · exact absurd hsl (by decide)
  · exact pad4_no_dash _ hy hin

theorem fromiso_fmtMDY (d : Date) (h : d.valid = true) :
    fromisoformatDate (fmtMDY d) = none := by
  unfold fromisoformatDate
  rw [splitOnChar_single '-' _ (dash_not_in_fmtMDY d h)]

theorem strptimeYMD_fmtMDY (d : Date) (h : d.valid = true) :
    strptimeYMD (fmtMDY d) = none := by
  unfold strptimeYMD
  rw [splitOnChar_single '-' _ (dash_not_in_fmtMDY d h)]

theorem strptimeMDY_fmtMDY (d : Date) (h : d.valid = true) :
    strptimeMDY (fmtMDY d) = some d := by
  obtain ⟨hy, hm, hd⟩ := date_bounds h
  unfold strptimeMDY
  rw [fmtMDY_data,
    splitOnChar_three '/' _ _ _ (pad2_no_slash ⟨_, hm⟩) (pad2_no_slash ⟨_, hd⟩)
      (pad4_no_slash _ hy)]
  simp only [pad4_length, pad2_length]
  rw [if_pos (by simp), parse_pad4N _ hy, parse_pad2N _ hm, parse_pad2N _ hd]
  exact mkValidDate_self d h

theorem csvParse_fmtYMD (d : Date) (h : d.valid = true) :
    csvParseDate (fmtYMD d) = some d := by
  unfold csvParseDate
  rw [strptimeYMD_fmtYMD d h]

theorem csvParse_fmtMDY (d : Date) (h : d.valid = true) :
    csvParseDate (fmtMDY d) = some d := by
  unfold csvParseDate
  rw [strptimeYMD_fmtMDY d h, strptimeMDY_fmtMDY d h]

theorem fmtYMD_ne_empty (d : Date) : (fmtYMD d == "") = false := by
  rw [beq_eq_false_iff_ne]
  intro hcontra
  have : (fmtYMD d).data = [] := by rw [hcontra]
  rw [fmtYMD_data] at this
  simp [pad4L, pad2L] at this

/-! Integer rendering/parsing roundtrip. -/

theorem natDigits_digits (n : Nat) : (natDigits n).all isDigitCh = true := by
  induction n using Nat.strong_induction_on with
  | _ n ih =>
    rw [natDigits]
    split
    · rename_i h
      simpa using (digitChar_spec ⟨n, h⟩).1
    · rename_i h
      rw [List.all_append]
      refine Bool.and_eq_true_iff.mpr ⟨ih (n / 10) (Nat.div_lt_self (by omega) (by omega)), ?_⟩
      simpa using (digitChar_spec ⟨n % 10, by omega⟩).1

theorem natDigits_head (n : Nat) :
    ∃ k rest, k < 10 ∧ natDigits n = digitChar k :: rest := by
  induction n using Nat.strong_induction_on with
  | _ n ih =>
    rw [natDigits]
    split
    · rename_i h
      exact ⟨n, [], h, rfl⟩
    · rename_i h
      obtain ⟨k, rest, hk, heq⟩ := ih (n / 10) (Nat.div_lt_self (by omega) (by omega))
      exact ⟨k, rest ++ [digitChar (n % 10)], hk, by rw [heq]; rfl⟩

theorem foldl_natDigits (n : Nat) : ∀ a : Nat,
    (natDigits n).foldl (fun b c => 10 * b + digitVal c) a =
      a * 10 ^ (natDigits n).length + n := by
  induction n using Nat.strong_induction_on with
  | _ n ih =>
    intro a
    rw [natDigits]
    split
    · rename_i h
      simp [List.foldl_cons, (digitChar_spec ⟨n, h⟩).2.1]
      ring
    · rename_i h
      rw [List.foldl_append, List.length_append,
        ih (n / 10) (Nat.div_lt_self (by omega) (by omega)) a]
      simp only [List.foldl_cons, List.foldl_nil, List.length_cons, List.length_nil,
        (digitChar_spec ⟨n % 10, by omega⟩).2.1]
      have hdm : 10 * (n / 10) + n % 10 = n := by omega
      rw [pow_add]
      ring_nf
      omega

theorem parseNatList_natDigits (n : Nat) : parseNatList (natDigits n) = some n := by
  have hne : natDigits n ≠ [] := by
    obtain ⟨k, rest, _, heq⟩ := natDigits_head n
    simp [heq]
  unfold parseNatList
  rw [if_pos (by simp [natDigits_digits n, List.isEmpty_eq_false, hne])]
  rw [foldl_natDigits n 0]
  simp

theorem isDigit_not_space {c : Char} (h : isDigitCh c = true) : isSpaceCh c = false := by
  by_contra hc
  have hs : isSpaceCh c = true := by revert hc; cases isSpaceCh c <;> simp
  unfold isSpaceCh at hs
  unfold isDigitCh at h
  simp only [Bool.or_eq_true, beq_iff_eq] at hs
  simp only [Bool.and_eq_true, decide_eq_true_eq] at h
  rcases hs with ((((h1 | h1) | h1) | h1) | h1) | h1 <;> (subst h1; revert h; decide)

theorem dropWhile_space_digits (l : List Char) (h : l.all isDigitCh = true) :
    l.dropWhile isSpaceCh = l := by
  cases l with
  | nil => rfl
  | cons c cs =>
    have hd : isDigitCh c = true := by
      simp only [List.all_cons, Bool.and_eq_true] at h
      exact h.1
    rw [List.dropWhile_cons, isDigit_not_space hd]
    simp

theorem trimCh_digits (l : List Char) (h : l.all isDigitCh = true) : trimCh l = l := by
  have hrev : l.reverse.all isDigitCh = true := by
    simp only [List.all_eq_true, List.mem_reverse]
    simp only [List.all_eq_true] at h
    exact h
  unfold trimCh
  rw [dropWhile_space_digits l h, dropWhile_space_digits l.reverse hrev,
    List.reverse_reverse]

theorem isDigit_not_sign {c : Char} (h : isDigitCh c = true) : c ≠ '-' ∧ c ≠ '+' := by
  unfold isDigitCh at h
  simp only [Bool.and_eq_true, decide_eq_true_eq] at h
  constructor <;> (intro he; subst he; revert h; decide)

theorem pyInt_digits (l : List Char) (n : Nat) (hall : l.all isDigitCh = true)
    (hp : parseNatList l = some n) : pyInt ⟨l⟩ = some (n : Int) := by
  cases l with
  | nil => exact absurd hp (by simp [parseNatList])
  | cons c cs =>
    have hd : isDigitCh c = true := by
      simp only [List.all_cons, Bool.and_eq_true] at hall
      exact hall.1
    obtain ⟨h1, h2⟩ := isDigit_not_sign hd
    simp only [pyInt, show (String.mk (c :: cs)).data = c :: cs from rfl,
      trimCh_digits _ hall, List.head?_cons, Option.some.injEq,
      if_neg h1, if_neg h2, hp]
    rfl

theorem pyInt_intStr (n : Int) (hn : 0 ≤ n) : pyInt (intStr n) = some n := by
  unfold intStr
  rw [if_neg (by omega)]
  rw [pyInt_digits (natDigits n.natAbs) n.natAbs (natDigits_digits _)
    (parseNatList_natDigits _)]
  rw [Int.natAbs_of_nonneg hn]

theorem pyStrip_intStr (n : Int) (hn : 0 ≤ n) : (pyStrip (intStr n) = "") = False := by
  unfold intStr
  rw [if_neg (by omega)]
  unfold pyStrip
  rw [show (String.mk (natDigits n.natAbs)).data = natDigits n.natAbs from rfl,
    trimCh_digits _ (natDigits_digits _)]
  obtain ⟨k, rest, _, heq⟩ := natDigits_head n.natAbs
  rw [heq]
  simp only [eq_iff_iff, iff_false]
  intro hcontra
  have : (digitChar k :: rest) = ([] : List Char) := congrArg String.data hcontra
  simp at this

theorem ratTrunc_intCast (n : Int) : ratTrunc (n : Rat) = n := by
  unfold ratTrunc
  rw [Rat.num_intCast, Rat.den_intCast]
  simp [Int.tdiv_one]

/-! Reference-resolution step lemmas. -/

theorem RefOnly.refl (ls : LoopSt) : RefOnly ls ls :=
  ⟨rfl, rfl, rfl, rfl, rfl, rfl, Nat.le_refl _, id⟩

theorem RefOnly.trans {a b c : LoopSt} (h1 : RefOnly a b) (h2 : RefOnly b c) :
    RefOnly a c := by
  obtain ⟨c1, u1, f1, e1, i1, g1, n1, r1⟩ := h1
  obtain ⟨c2, u2, f2, e2, i2, g2, n2, r2⟩ := h2
  exact ⟨c2.trans c1, u2.trans u1, f2.trans f1, e2.trans e1, i2.trans i1,
    g2.trans g1, n1.trans n2, fun h => r2 (r1 h)⟩

theorem gocLocation_run (nm : String) (ls : LoopSt) :
    (∃ l, findLocByName ls.store.locations nm = some l ∧
      getOrCreateLocation nm ls = (ls, .ok l.id))
  ∨ (findLocByName ls.store.locations nm = none ∧
      getOrCreateLocation nm ls =
        ({ ls with store := { ls.store with
            locations := ls.store.locations ++ [⟨ls.store.nextId, nm, ""⟩],
            nextId := ls.store.nextId + 1 } }, .ok ls.store.nextId)) := by
  unfold getOrCreateLocation
  rcases h : findLocByName ls.store.locations nm with _ | l
  · right
    exact ⟨Eq.refl none, by simp only [PyM.bind_def, PyM.getStore, h, PyM.setStore, PyM.pure_def]⟩
  · left
    exact ⟨l, Eq.refl _, by simp only [PyM.bind_def, PyM.getStore, h, PyM.pure_def]⟩

theorem freshIds_appendLoc {st : Store} (nm : String) (h : st.freshIds) :
    Store.freshIds { st with
      locations := st.locations ++ [⟨st.nextId, nm, ""⟩], nextId := st.nextId + 1 } := by
  obtain ⟨h1, h2, h3, h4⟩ := h
  refine ⟨?_, ?_, ?_, ?_⟩ <;> intro x hx <;> simp only [List.mem_append, List.mem_singleton] at *
  · rcases hx with hx | hx
    · exact Nat.lt_succ_of_lt (h1 x hx)
    · subst hx; exact Nat.lt_succ_self _
  · exact Nat.lt_succ_of_lt (h2 x hx)
  · exact Nat.lt_succ_of_lt (h3 x hx)
  · exact Nat.lt_succ_of_lt (h4 x hx)

theorem gocLocation_refOnly (nm : String) (ls : LoopSt) :
    ∃ lid ls1, getOrCreateLocation nm ls = (ls1, .ok lid) ∧ RefOnly ls ls1 ∧
      ls1.store.labels = ls.store.labels ∧ ls1.store.currencies = ls.store.currencies := by
  rcases gocLocation_run nm ls with ⟨l, _, heq⟩ | ⟨_, heq⟩
  · exact ⟨l.id, ls, heq, RefOnly.refl ls, rfl, rfl⟩
  · refine ⟨ls.store.nextId, _, heq, ?_, rfl, rfl⟩
    exact ⟨rfl, rfl, rfl, rfl, rfl, rfl, Nat.le_succ _, freshIds_appendLoc nm⟩

theorem freshIds_appendLabel {st : Store} (nm col : String) (h : st.freshIds) :
    Store.freshIds { st with
      labels := st.labels ++ [⟨st.nextId, nm, col⟩], nextId := st.nextId + 1 } := by
  obtain ⟨h1, h2, h3, h4⟩ := h
  refine ⟨?_, ?_, ?_, ?_⟩ <;> intro x hx <;> simp only [List.mem_append, List.mem_singleton] at *
  · exact Nat.lt_succ_of_lt (h1 x hx)
  · rcases hx with hx | hx
    · exact Nat.lt_succ_of_lt (h2 x hx)
    · subst hx; exact Nat.lt_succ_self _
  · exact Nat.lt_succ_of_lt (h3 x hx)
  · exact Nat.lt_succ_of_lt (h4 x hx)

theorem gocLabel_refOnly (nm col : String) (ls : LoopSt) :
    ∃ lid ls1, getOrCreateLabel nm col ls = (ls1, .ok lid) ∧ RefOnly ls ls1 ∧
      ls1.store.locations = ls.store.locations := by
  unfold getOrCreateLabel
  rcases h : findLabelByName ls.store.labels nm with _ | l
  · refine ⟨ls.store.nextId,
      { ls with store := { ls.store with
          labels := ls.store.labels ++ [⟨ls.store.nextId, nm, col⟩],
          nextId := ls.store.nextId + 1 } },
      by simp only [PyM.bind_def, PyM.getStore, h, PyM.setStore, PyM.pure_def], ?_, rfl⟩
    exact ⟨rfl, rfl, rfl, rfl, rfl, rfl, Nat.le_succ _, freshIds_appendLabel nm col⟩
  · exact ⟨l.id, ls, by simp only [PyM.bind_def, PyM.getStore, h, PyM.pure_def],
      RefOnly.refl ls, rfl⟩

theorem freshIds_appendCurr {st : Store} (cd nm sy : String) (h : st.freshIds) :
    Store.freshIds { st with
      currencies := st.currencies ++ [⟨st.nextId, cd, nm, sy⟩], nextId := st.nextId + 1 } := by
  obtain ⟨h1, h2, h3, h4⟩ := h
  refine ⟨?_, ?_, ?_, ?_⟩ <;> intro x hx <;> simp only [List.mem_append, List.mem_singleton] at *
  · exact Nat.lt_succ_of_lt (h1 x hx)
  · exact Nat.lt_succ_of_lt (h2 x hx)
  · rcases hx with hx | hx
    · exact Nat.lt_succ_of_lt (h3 x hx)
    · subst hx; exact Nat.lt_succ_self _
  · exact Nat.lt_succ_of_lt (h4 x hx)

theorem gocCurrency_refOnly (cd nm sy : String) (ls : LoopSt) :
    ∃ cid ls1, getOrCreateCurrency cd nm sy ls = (ls1, .ok cid) ∧ RefOnly ls ls1 ∧
      ls1.store.locations = ls.store.locations := by
  unfold getOrCreateCurrency
  rcases h : findCurrByCode ls.store.currencies cd with _ | c
  · refine ⟨ls.store.nextId,
      { ls with store := { ls.store with
          currencies := ls.store.currencies ++ [⟨ls.store.nextId, cd, nm, sy⟩],
          nextId := ls.store.nextId + 1 } },
      by simp only [PyM.bind_def, PyM.getStore, h, PyM.setStore, PyM.pure_def], ?_, rfl⟩
    exact ⟨rfl, rfl, rfl, rfl, rfl, rfl, Nat.le_succ _, freshIds_appendCurr cd nm sy⟩
  · exact ⟨c.id, ls, by simp only [PyM.bind_def, PyM.getStore, h, PyM.pure_def],
      RefOnly.refl ls, rfl⟩

theorem gocCurrencyCell_refOnly (cd : String) (ls : LoopSt) :
    ∃ r ls1, getOrCreateCurrencyCell cd ls = (ls1, .ok r) ∧ RefOnly ls ls1 ∧
      ls1.store.locations = ls.store.locations := by
  unfold getOrCreateCurrencyCell
  by_cases h : cd = ""
  · exact ⟨none, ls, by simp only [if_pos h, PyM.pure_def], RefOnly.refl ls, rfl⟩
  · obtain ⟨cid, ls1, heq, hro, hloc⟩ := gocCurrency_refOnly cd cd "" ls
    exact ⟨some cid, ls1,
      by simp only [if_neg h, PyM.bind_def, heq, PyM.pure_def], hro, hloc⟩

theorem csvLabelIds_refOnly (nms : List String) : ∀ ls : LoopSt,
    ∃ ids ls1, csvLabelIds nms ls = (ls1, .ok ids) ∧ RefOnly ls ls1 ∧
      ls1.store.locations = ls.store.locations := by
  induction nms with
  | nil =>
    intro ls
    exact ⟨[], ls, by simp only [csvLabelIds, PyM.pure_def], RefOnly.refl ls, rfl⟩
  | cons nm rest ih =>
    intro ls
    obtain ⟨lid, ls1, heq1, hro1, hloc1⟩ := gocLabel_refOnly nm "#3498db" ls
    obtain ⟨ids, ls2, heq2, hro2, hloc2⟩ := ih ls1
    exact ⟨lid :: ids, ls2,
      by simp only [csvLabelIds, PyM.bind_def, heq1, heq2, PyM.pure_def],
      hro1.trans hro2, hloc2.trans hloc1⟩

theorem resolveLabels_refOnly (lrs : List LabelRef) : ∀ ls : LoopSt,
    ∃ ids ls1, resolveLabels lrs ls = (ls1, .ok ids) ∧ RefOnly ls ls1 := by
  induction lrs with
  | nil =>
    intro ls
    exact ⟨[], ls, by simp only [resolveLabels, PyM.pure_def], RefOnly.refl ls⟩
  | cons lr rest ih =>
    intro ls
    rcases hn : lr.name with _ | nm
    · obtain ⟨ids, ls1, heq, hro⟩ := ih ls
      exact ⟨ids, ls1, by simp only [resolveLabels, hn, heq], hro⟩
    · obtain ⟨lid, ls1, heq1, hro1, _⟩ := gocLabel_refOnly nm (lr.color.getD "#3498db") ls
      obtain ⟨ids, ls2, heq2, hro2⟩ := ih ls1
      exact ⟨lid :: ids, ls2,
        by simp only [resolveLabels, hn, PyM.bind_def, heq1, heq2, PyM.pure_def],
        hro1.trans hro2⟩

theorem resolveCurr_refOnly (cr : Option CurrRef) (ls : LoopSt) :
    ∃ r ls1, resolveCurr cr ls = (ls1, .ok r) ∧ RefOnly ls ls1 := by
  rcases cr with _ | c
  · exact ⟨none, ls, by simp only [resolveCurr, PyM.pure_def], RefOnly.refl ls⟩
  · obtain ⟨cid, ls1, heq, hro, _⟩ :=
      gocCurrency_refOnly c.code (c.name.getD c.code) (c.symbol.getD "") ls
    exact ⟨some cid, ls1,
      by simp only [resolveCurr, PyM.bind_def, heq, PyM.pure_def], hro⟩

theorem resolveRefs_refOnly (r : JsonRecord) (ls : LoopSt) :
    ∃ refs ls1, resolveRefs r ls = (ls1, .ok refs) ∧ RefOnly ls ls1 := by
  unfold resolveRefs
  rcases hl : r.location with _ | nm
  · obtain ⟨ids, ls1, h1, ro1⟩ := resolveLabels_refOnly r.labels ls
    obtain ⟨pc, ls2, h2, ro2⟩ := resolveCurr_refOnly r.purchase_currency ls1
    obtain ⟨sc, ls3, h3, ro3⟩ := resolveCurr_refOnly r.sold_currency ls2
    obtain ⟨ic, ls4, h4, ro4⟩ := resolveCurr_refOnly r.insured_currency ls3
    exact ⟨⟨none, ids, pc, sc, ic⟩, ls4,
      by simp only [hl, PyM.bind_def, PyM.pure_def, h1, h2, h3, h4],
      ((ro1.trans ro2).trans ro3).trans ro4⟩
  · obtain ⟨lid, ls0, h0, ro0, _⟩ := gocLocation_refOnly nm ls
    obtain ⟨ids, ls1, h1, ro1⟩ := resolveLabels_refOnly r.labels ls0
    obtain ⟨pc, ls2, h2, ro2⟩ := resolveCurr_refOnly r.purchase_currency ls1
    obtain ⟨sc, ls3, h3, ro3⟩ := resolveCurr_refOnly r.sold_currency ls2
    obtain ⟨ic, ls4, h4, ro4⟩ := resolveCurr_refOnly r.insured_currency ls3
    exact ⟨⟨some lid, ids, pc, sc, ic⟩, ls4,
      by simp only [hl, PyM.bind_def, PyM.pure_def, h0, h1, h2, h3, h4],
      (((ro0.trans ro1).trans ro2).trans ro3).trans ro4⟩

/-! Save and bookkeeping step lemmas. -/

theorem exc_ok_bind {α β : Type} (a : α) (f : α → Except String β) :
    ((Except.ok a : Except String α) >>= f) = f a := rfl

theorem exc_err_bind {α β : Type} (e : String) (f : α → Except String β) :
    ((Except.error e : Except String α) >>= f) = (Except.error e : Except String β) := rfl

theorem prepItem_ok_inv {iid : Nat} {p : PendingItem} {it : Item}
    (h : prepItem iid p = .ok it) :
    ∃ v, prepScalars p = .ok v ∧ it = prepAssemble iid p v := by
  unfold prepItem at h
  rcases hv : prepScalars p with e | v <;> rw [hv] at h
  · exact absurd h (by simp [Except.map])
  · refine ⟨v, rfl, ?_⟩
    have : Except.ok (prepAssemble iid p v) = (Except.ok it : Except String Item) := by
      simpa [Except.map] using h
    exact (Except.ok.inj this).symm

theorem saveItem_create (p : PendingItem) (hid : p.idSlot = none) (ls : LoopSt) :
    (∃ v, prepScalars p = .ok v ∧
      saveItem p ls = ({ ls with store := { ls.store with
        items := ls.store.items ++ [prepAssemble ls.store.nextId p v],
        nextId := ls.store.nextId + 1 } }, .ok ls.store.nextId))
  ∨ (∃ e, prepScalars p = .error e ∧ saveItem p ls = (ls, .error e)) := by
  unfold saveItem
  rcases hv : prepScalars p with e | v
  · right
    exact ⟨e, rfl, by simp only [hid, prepItem, hv, Except.map]⟩
  · left
    exact ⟨v, rfl, by simp only [hid, prepItem, hv, Except.map]⟩

theorem saveItem_update (p : PendingItem) (iid : Nat) (hid : p.idSlot = some iid)
    (ls : LoopSt) :
    (∃ v, prepScalars p = .ok v ∧
      saveItem p ls = ({ ls with store := { ls.store with
        items := ls.store.items.map
          (fun o => if o.id = iid then prepAssemble iid p v else o) } }, .ok iid))
  ∨ (∃ e, prepScalars p = .error e ∧ saveItem p ls = (ls, .error e)) := by
  unfold saveItem
  rcases hv : prepScalars p with e | v
  · right
    exact ⟨e, rfl, by simp only [hid, prepItem, hv, Except.map]⟩
  · left
    exact ⟨v, rfl, by simp only [hid, prepItem, hv, Except.map]⟩

theorem itemLabelsSet_run (iid : Nat) (lids : List Nat) (ls : LoopSt) :
    itemLabelsSet iid lids ls = ({ ls with store := { ls.store with
      items := ls.store.items.map
        (fun o => if o.id = iid then { o with labels := lids } else o) } }, .ok ()) := rfl

theorem incCreated_run (ls : LoopSt) :
    PyM.incCreated ls = ({ ls with created := ls.created + 1 }, .ok ()) := rfl

theorem incUpdated_run (ls : LoopSt) :
    PyM.incUpdated ls = ({ ls with updated := ls.updated + 1 }, .ok ()) := rfl

theorem throw_run {α : Type} (e : String) (ls : LoopSt) :
    (PyM.throw e : PyM α) ls = (ls, .error e) := rfl

theorem labelsSet_fresh (items : List Item) (it : Item) (lids : List Nat)
    (hfresh : ∀ o ∈ items, o.id ≠ it.id) :
    (items ++ [it]).map (fun o => if o.id = it.id then { o with labels := lids } else o) =
      items ++ [{ it with labels := lids }] := by
  rw [List.map_append]
  congr 1
  · have : ∀ o ∈ items,
        (if o.id = it.id then { o with labels := lids } else o) = id o := by
      intro o ho
      simp [if_neg (hfresh o ho)]
    rw [List.map_congr_left this, List.map_id]
  · simp

theorem freshIds_appendItem {st : Store} (it : Item) (hid : it.id = st.nextId)
    (h : st.freshIds) :
    Store.freshIds { st with items := st.items ++ [it], nextId := st.nextId + 1 } := by
  obtain ⟨h1, h2, h3, h4⟩ := h
  refine ⟨?_, ?_, ?_, ?_⟩ <;> intro x hx <;> simp only [List.mem_append, List.mem_singleton] at *
  · exact Nat.lt_succ_of_lt (h1 x hx)
  · exact Nat.lt_succ_of_lt (h2 x hx)
  · exact Nat.lt_succ_of_lt (h3 x hx)
  · rcases hx with hx | hx
    · exact Nat.lt_succ_of_lt (h4 x hx)
    · subst hx; omega

theorem csvLocationStep_spec (nm : String) (ls : LoopSt) :
    ∃ r ls1, csvLocationStep nm ls = (ls1, .ok r) ∧ RefOnly ls ls1 := by
  unfold csvLocationStep
  by_cases h : nm = ""
  · exact ⟨none, ls, by simp only [if_pos h, PyM.pure_def], RefOnly.refl ls⟩
  · obtain ⟨lid, ls1, heq, hro, _, _⟩ := gocLocation_refOnly nm ls
    exact ⟨some lid, ls1, by simp only [if_neg h, PyM.bind_def, heq, PyM.pure_def], hro⟩

theorem csvQuantityStep_cases (row : CsvRow) (ls : LoopSt) :
    (∃ v, csvQuantityStep row ls = (ls, .ok v) ∧
      ((pyStrip (rowGet row "Quantity" "") = "" ∧ v = PyVal.vnum 1) ∨
       (∃ m : Int, pyInt (rowGet row "Quantity" "1") = some m ∧
         pyStrip (rowGet row "Quantity" "") ≠ "" ∧ v = PyVal.vnum (m : Rat))))
  ∨ (∃ e, csvQuantityStep row ls = (ls, .error e) ∧
      pyStrip (rowGet row "Quantity" "") ≠ "" ∧
      pyInt (rowGet row "Quantity" "1") = none) := by
  unfold csvQuantityStep
  by_cases h : pyStrip (rowGet row "Quantity" "") = ""
  · exact Or.inl ⟨PyVal.vnum 1, by simp only [if_pos h, PyM.pure_def], Or.inl ⟨h, rfl⟩⟩
  · rcases hqi : pyInt (rowGet row "Quantity" "1") with _ | n
    · exact Or.inr ⟨"ValueError: invalid literal for int() with base 10: " ++
        rowGet row "Quantity" "1", by simp only [if_neg h, hqi, throw_run], h, rfl⟩
    · exact Or.inl ⟨PyVal.vnum (n : Rat), by simp only [if_neg h, hqi, PyM.pure_def],
        Or.inr ⟨n, rfl, h, rfl⟩⟩

theorem prepScalars_inv {p : PendingItem} {v : PreppedScalars}
    (h : prepScalars p = .ok v) : prepQuantity p.quantity = .ok v.qty := by
  unfold prepScalars at h
  rcases h1 : prepName p.name with e | nm <;> rw [h1] at h
  · rw [exc_err_bind] at h
    exact absurd h (by simp)
  rw [exc_ok_bind] at h
  rcases h2 : prepQuantity p.quantity with e | qty <;> rw [h2] at h
  · rw [exc_err_bind] at h
    exact absurd h (by simp)
  rw [exc_ok_bind] at h
  rcases h3 : prepBool p.important with e | b1 <;> rw [h3] at h
  · rw [exc_err_bind] at h
    exact absurd h (by simp)
  rw [exc_ok_bind] at h
  rcases h4 : prepBool p.sold with e | b2 <;> rw [h4] at h
  · rw [exc_err_bind] at h
    exact absurd h (by simp)
  rw [exc_ok_bind] at h
  rcases h5 : prepBool p.insured with e | b3 <;> rw [h5] at h
  · rw [exc_err_bind] at h
    exact absurd h (by simp)
  rw [exc_ok_bind] at h
  rcases h6 : prepDate p.purchase_date with e | d1 <;> rw [h6] at h
  · rw [exc_err_bind] at h
    exact absurd h (by simp)
  rw [exc_ok_bind] at h
  rcases h7 : prepDate p.warranty_expires with e | d2 <;> rw [h7] at h
  · rw [exc_err_bind] at h
    exact absurd h (by simp)
  rw [exc_ok_bind] at h
  rcases h8 : prepDate p.sold_date with e | d3 <;> rw [h8] at h
  · rw [exc_err_bind] at h
    exact absurd h (by simp)
  rw [exc_ok_bind] at h
  rcases h9 : prepDec p.purchase_price with e | q1 <;> rw [h9] at h
  · rw [exc_err_bind] at h
    exact absurd h (by simp)
  rw [exc_ok_bind] at h
  rcases h10 : prepDec p.sold_price with e | q2 <;> rw [h10] at h
  · rw [exc_err_bind] at h
    exact absurd h (by simp)
  rw [exc_ok_bind] at h
  rcases h11 : prepDec p.insured_value with e | q3 <;> rw [h11] at h
  · rw [exc_err_bind] at h
    exact absurd h (by simp)
  rw [exc_ok_bind] at h
  cases Except.ok.inj h
  rfl

/-- Exhaustive effect analysis of one CSV loop-body run: either the row is
persisted — one fresh item appended, created-count incremented — or it
raises, leaving the item rows untouched (reference rows created before the
raise are kept in both cases, but never items). -/
theorem processCsvRow_cases (row : CsvRow) (ls : LoopSt) (hf : ls.store.freshIds) :
    (∃ it ls1, processCsvRow row ls = (ls1, .ok ()) ∧
      ls1.store.items = ls.store.items ++ [it] ∧ ls1.store.logs = ls.store.logs ∧
      ls1.created = ls.created + 1 ∧ ls1.updated = ls.updated ∧ ls1.failed = ls.failed ∧
      ls1.errors = ls.errors ∧ ls1.store.freshIds ∧
      (pyStrip (rowGet row "Quantity" "") = "" → it.quantity = 1) ∧
      (∀ m : Int, pyInt (rowGet row "Quantity" "1") = some m →
        pyStrip (rowGet row "Quantity" "") ≠ "" → it.quantity = m) ∧
      (pyStrip (rowGet row "Quantity" "") = "" ∨
        ∃ m : Int, pyInt (rowGet row "Quantity" "1") = some m))
  ∨ (∃ e ls1, processCsvRow row ls = (ls1, .error e) ∧
      ls1.store.items = ls.store.items ∧ ls1.store.logs = ls.store.logs ∧
      ls1.created = ls.created ∧ ls1.updated = ls.updated ∧ ls1.failed = ls.failed ∧
      ls1.errors = ls.errors ∧ ls1.store.freshIds ∧
      ((pyStrip (rowGet row "Quantity" "") ≠ "" ∧ pyInt (rowGet row "Quantity" "1") = none) ∨
       (∃ loc2 pc2 sc2 ic2 e2,
         (pyStrip (rowGet row "Quantity" "") = "" ∧
           prepScalars (csvPending row (PyVal.vnum 1) loc2 pc2 sc2 ic2) = .error e2) ∨
         (∃ m : Int, pyStrip (rowGet row "Quantity" "") ≠ "" ∧
           pyInt (rowGet row "Quantity" "1") = some m ∧
           prepScalars (csvPending row (PyVal.vnum (m : Rat)) loc2 pc2 sc2 ic2) = .error e2)))) := by
  unfold processCsvRow
  obtain ⟨loc, ls1, hle, hro1⟩ := csvLocationStep_spec (pyStrip (rowGet row "Location" "")) ls
  obtain ⟨lids, ls2, hlab, hro2, _⟩ :=
    csvLabelIds_refOnly
      (((splitCommas (rowGet row "Labels" "")).map pyStrip).filter (fun s => !(s == ""))) ls1
  have hro12 := hro1.trans hro2
  have hf2 : ls2.store.freshIds := hro12.2.2.2.2.2.2.2 hf
  rcases csvQuantityStep_cases row ls2 with ⟨qty, hqty, hqv⟩ | ⟨e, hqty, hnb0, hnone0⟩
  · obtain ⟨pc, ls3, hpc, hro3, _⟩ :=
      gocCurrencyCell_refOnly (pyStrip (rowGet row "Purchase Currency" "")) ls2
    obtain ⟨sc, ls4, hsc, hro4, _⟩ :=
      gocCurrencyCell_refOnly (pyStrip (rowGet row "Sold Currency" "")) ls3
    obtain ⟨ic, ls5, hic, hro5, _⟩ :=
      gocCurrencyCell_refOnly (pyStrip (rowGet row "Insured Currency" "")) ls4
    have hro15 := ((hro12.trans hro3).trans hro4).trans hro5
    have hf5 : ls5.store.freshIds := hro15.2.2.2.2.2.2.2 hf
    rcases saveItem_create (csvPending row qty loc pc sc ic) rfl ls5 with
      ⟨v, hv, hsave⟩ | ⟨e, hv, hsave⟩
    · left
      have hfr : ∀ o ∈ ls5.store.items,
          o.id ≠ (prepAssemble ls5.store.nextId (csvPending row qty loc pc sc ic) v).id := by
        intro o ho
        have := hf5.2.2.2 o ho
        simp only [prepAssemble]
        omega
      have hitems :
          (ls5.store.items ++
            [prepAssemble ls5.store.nextId (csvPending row qty loc pc sc ic) v]).map
              (fun o => if o.id = ls5.store.nextId then { o with labels := lids } else o) =
          ls5.store.items ++
            [{ prepAssemble ls5.store.nextId (csvPending row qty loc pc sc ic) v with
                labels := lids }] := by
        have := labelsSet_fresh ls5.store.items
          (prepAssemble ls5.store.nextId (csvPending row qty loc pc sc ic) v) lids hfr
        simpa only [prepAssemble] using this
      refine ⟨{ prepAssemble ls5.store.nextId (csvPending row qty loc pc sc ic) v with
          labels := lids }, _,
        by simp only [PyM.bind_def, hle, hlab, hqty, hpc, hsc, hic, hsave,
             itemLabelsSet_run, incCreated_run]
           rfl,
        ?_, ?_, ?_, ?_, ?_, ?_, ?_, ?_, ?_, ?_⟩
      · show (ls5.store.items ++ [_]).map _ = _
        rw [hitems, hro15.2.2.2.2.1]
      · exact hro15.2.2.2.2.2.1
      · rw [hro15.1]
      · exact hro15.2.1
      · exact hro15.2.2.1
      · exact hro15.2.2.2.1
      · show Store.freshIds _
        have happ : Store.freshIds { ls5.store with
            items := ls5.store.items ++
              [{ prepAssemble ls5.store.nextId (csvPending row qty loc pc sc ic) v with
                  labels := lids }],
            nextId := ls5.store.nextId + 1 } :=
          freshIds_appendItem _ (by simp [prepAssemble]) hf5
        simpa only [hitems] using happ
      · intro hb
        rcases hqv with ⟨-, rfl⟩ | ⟨m, hm, hnb, rfl⟩
        · have hq' : prepQuantity (PyVal.vnum 1) = Except.ok v.qty := prepScalars_inv hv
          have hq1 : prepQuantity (PyVal.vnum 1) = Except.ok 1 := by
            simp only [prepQuantity]
            rfl
          exact (Except.ok.inj (hq1.symm.trans hq')).symm
        · exact absurd hb hnb
      · intro m' hm' hnb'
        rcases hqv with ⟨hb, rfl⟩ | ⟨m, hm, hnb, rfl⟩
        · exact absurd hb hnb'
        · obtain rfl : m = m' := Option.some.inj (hm.symm.trans hm')
          have hq' : prepQuantity (PyVal.vnum (m : Rat)) = Except.ok v.qty := prepScalars_inv hv
          rw [show prepQuantity (PyVal.vnum (m : Rat)) =
              (if 0 ≤ m then Except.ok m
               else Except.error "IntegrityError: CHECK constraint failed: quantity")
            from by simp only [prepQuantity, ratTrunc_intCast]] at hq'
          split at hq'
          · exact (Except.ok.inj hq').symm
          · exact absurd hq' (by simp)
      · rcases hqv with ⟨hb, rfl⟩ | ⟨m, hm, -, rfl⟩
        · exact Or.inl hb
        · exact Or.inr ⟨m, hm⟩
    · right
      refine ⟨e, ls5,
        by simp only [PyM.bind_def, hle, hlab, hqty, hpc, hsc, hic, hsave],
        ?_, ?_, ?_, ?_, ?_, ?_, hf5, ?_⟩
      · exact hro15.2.2.2.2.1
      · exact hro15.2.2.2.2.2.1
      · exact hro15.1
      · exact hro15.2.1
      · exact hro15.2.2.1
      · exact hro15.2.2.2.1
      · rcases hqv with ⟨hb, rfl⟩ | ⟨m, hm, hnb, rfl⟩
        · exact Or.inr ⟨loc, pc, sc, ic, e, Or.inl ⟨hb, hv⟩⟩
        · exact Or.inr ⟨loc, pc, sc, ic, e, Or.inr ⟨m, hnb, hm, hv⟩⟩
  · right
    refine ⟨e, ls2, by simp only [PyM.bind_def, hle, hlab, hqty],
      hro12.2.2.2.2.1, hro12.2.2.2.2.2.1, hro12.1, hro12.2.1, hro12.2.2.1,
      hro12.2.2.2.1, hf2, Or.inl ⟨hnb0, hnone0⟩⟩

/-- The CSV handler catch: each run of the loop body either appends exactly
one item and bumps created-count, or bumps failed-count and appends exactly
one error message, with the item rows unchanged. -/
theorem runCsvRow_cases (row : CsvRow) (ls : LoopSt) (hf : ls.store.freshIds) :
    (∃ it, (runCsvRow row ls).store.items = ls.store.items ++ [it] ∧
      (runCsvRow row ls).created = ls.created + 1 ∧
      (runCsvRow row ls).updated = ls.updated ∧
      (runCsvRow row ls).failed = ls.failed ∧
      (runCsvRow row ls).errors = ls.errors ∧
      (runCsvRow row ls).store.logs = ls.store.logs ∧
      (runCsvRow row ls).store.freshIds ∧
      (pyStrip (rowGet row "Quantity" "") = "" → it.quantity = 1) ∧
      (∀ m : Int, pyInt (rowGet row "Quantity" "1") = some m →
        pyStrip (rowGet row "Quantity" "") ≠ "" → it.quantity = m) ∧
      (pyStrip (rowGet row "Quantity" "") = "" ∨
        ∃ m : Int, pyInt (rowGet row "Quantity" "1") = some m))
  ∨ ((runCsvRow row ls).store.items = ls.store.items ∧
      (runCsvRow row ls).created = ls.created ∧
      (runCsvRow row ls).updated = ls.updated ∧
      (runCsvRow row ls).failed = ls.failed + 1 ∧
      (∃ e, (runCsvRow row ls).errors = ls.errors ++ [e]) ∧
      (runCsvRow row ls).store.logs = ls.store.logs ∧
      (runCsvRow row ls).store.freshIds ∧
      ((pyStrip (rowGet row "Quantity" "") ≠ "" ∧ pyInt (rowGet row "Quantity" "1") = none) ∨
       (∃ loc2 pc2 sc2 ic2 e2,
         (pyStrip (rowGet row "Quantity" "") = "" ∧
           prepScalars (csvPending row (PyVal.vnum 1) loc2 pc2 sc2 ic2) = .error e2) ∨
         (∃ m : Int, pyStrip (rowGet row "Quantity" "") ≠ "" ∧
           pyInt (rowGet row "Quantity" "1") = some m ∧
           prepScalars (csvPending row (PyVal.vnum (m : Rat)) loc2 pc2 sc2 ic2) = .error e2)))) := by
  unfold runCsvRow
  rcases processCsvRow_cases row ls hf with
    ⟨it, ls1, heq, h1, h2, h3, h4, h5, h6, h7, h8, h9, h10⟩ |
    ⟨e, ls1, heq, h1, h2, h3, h4, h5, h6, h7, h8⟩
  · rw [heq]
    exact Or.inl ⟨it, h1, h3, h4, h5, h6, h2, h7, h8, h9, h10⟩
  · rw [heq]
    refine Or.inr ⟨h1, h3, h4, ?_,
      ⟨"Error importing row " ++ toString (ls1.created + (ls1.failed + 1)) ++ ": " ++ e, ?_⟩,
      h2, h7, h8⟩
    · show ls1.failed + 1 = ls.failed + 1
      rw [h5]
    · show ls1.errors ++ [_] = ls.errors ++ [_]
      rw [h6]

/-- Loop invariant of the CSV import: updated-count is never touched, each
row adds one to exactly one of created/failed, failures append exactly one
message, and successes append exactly one item row. -/
theorem csvLoop_spec (rows : List CsvRow) : ∀ ls : LoopSt, ls.store.freshIds →
    (csvLoop rows ls).updated = ls.updated ∧
    (csvLoop rows ls).store.logs = ls.store.logs ∧
    (csvLoop rows ls).store.freshIds ∧
    ls.created ≤ (csvLoop rows ls).created ∧
    ls.failed ≤ (csvLoop rows ls).failed ∧
    ((csvLoop rows ls).created - ls.created) + ((csvLoop rows ls).failed - ls.failed) =
      rows.length ∧
    (∃ newItems : List Item,
      (csvLoop rows ls).store.items = ls.store.items ++ newItems ∧
      newItems.length = (csvLoop rows ls).created - ls.created) ∧
    (∃ newErrs : List String,
      (csvLoop rows ls).errors = ls.errors ++ newErrs ∧
      newErrs.length = (csvLoop rows ls).failed - ls.failed) := by
  induction rows with
  | nil =>
    intro ls hf
    refine ⟨rfl, rfl, hf, Nat.le_refl _, Nat.le_refl _, by simp [csvLoop], ⟨[], by simp [csvLoop], by simp [csvLoop]⟩,
      ⟨[], by simp [csvLoop], by simp [csvLoop]⟩⟩
  | cons row rest ih =>
    intro ls hf
    have hstep : csvLoop (row :: rest) ls = csvLoop rest (runCsvRow row ls) := rfl
    rcases runCsvRow_cases row ls hf with
      ⟨it, h1, h2, h3, h4, h5, h6, h7, -, -⟩ | ⟨h1, h2, h3, h4, ⟨e, h5⟩, h6, h7, -⟩
    · obtain ⟨u, lg, fr, lec, lef, hsum, ⟨ni, hni, hnil⟩, ⟨ne, hne, hnel⟩⟩ :=
        ih (runCsvRow row ls) h7
      rw [hstep]
      refine ⟨u.trans h3, lg.trans h6, fr, ?_, ?_, ?_, ?_, ?_⟩
      · omega
      · omega
      · rw [h2, h4] at *
        simp only [List.length_cons]
        omega
      · exact ⟨it :: ni, by rw [hni, h1, List.append_assoc]; rfl, by simp; omega⟩
      · exact ⟨ne, by rw [hne, h5], by omega⟩
    · obtain ⟨u, lg, fr, lec, lef, hsum, ⟨ni, hni, hnil⟩, ⟨ne2, hne, hnel⟩⟩ :=
        ih (runCsvRow row ls) h7
      rw [hstep]
      refine ⟨u.trans h3, lg.trans h6, fr, ?_, ?_, ?_, ?_, ?_⟩
      · omega
      · omega
      · rw [h2, h4] at *
        simp only [List.length_cons]
        omega
      · exact ⟨ni, by rw [hni, h1], by omega⟩
      · exact ⟨e :: ne2, by rw [hne, h5, List.append_assoc]; rfl, by simp; omega⟩

/-! JSON per-record machinery. -/

theorem liftE_ok_run {α : Type} (a : α) (ls : LoopSt) :
    liftE (Except.ok a) ls = (ls, .ok a) := rfl

theorem liftE_err_run {α : Type} (e : String) (ls : LoopSt) :
    (liftE (Except.error e) : PyM α) ls = (ls, .error e) := rfl

theorem findItemById_mem {items : List Item} {n : Nat} {it : Item}
    (h : findItemById items n = some it) : it ∈ items := by
  induction items with
  | nil => simp [findItemById] at h
  | cons a rest ih =>
    unfold findItemById at h
    split at h
    · exact (Option.some.inj h) ▸ List.mem_cons_self a rest
    · exact List.mem_cons_of_mem a (ih h)

theorem setField_idSlot (p : PendingItem) (f : ScalarField) (v : PyVal) :
    (setField p f v).idSlot = p.idSlot := by
  cases f <;> rfl

theorem applyScalars_idSlot (sc : List (ScalarField × PyVal)) : ∀ p : PendingItem,
    (applyScalars p sc).idSlot = p.idSlot := by
  induction sc with
  | nil => intro p; rfl
  | cons kv rest ih =>
    intro p
    show (applyScalars (setField p kv.1 kv.2) rest).idSlot = p.idSlot
    rw [ih, setField_idSlot]

theorem freshIds_mapReplace {st : Store} (iid : Nat) (it : Item) (hid : it.id = iid)
    (hlt : iid < st.nextId) (h : st.freshIds) :
    Store.freshIds { st with items := st.items.map (fun o => if o.id = iid then it else o) } := by
  obtain ⟨h1, h2, h3, h4⟩ := h
  refine ⟨h1, h2, h3, ?_⟩
  intro x hx
  show x.id < st.nextId
  simp only [List.mem_map] at hx
  obtain ⟨o, ho, hxo⟩ := hx
  by_cases hc : o.id = iid
  · rw [if_pos hc] at hxo
    subst hxo
    omega
  · rw [if_neg hc] at hxo
    subst hxo
    exact h4 o ho

theorem freshIds_mapLabels {st : Store} (iid : Nat) (lids : List Nat) (h : st.freshIds) :
    Store.freshIds { st with items := st.items.map (fun o => if o.id = iid then { o with labels := lids } else o) } := by
  obtain ⟨h1, h2, h3, h4⟩ := h
  refine ⟨h1, h2, h3, ?_⟩
  intro x hx
  show x.id < st.nextId
  simp only [List.mem_map] at hx
  obtain ⟨o, ho, hxo⟩ := hx
  by_cases hc : o.id = iid
  · rw [if_pos hc] at hxo
    subst hxo
    exact h4 o ho
  · rw [if_neg hc] at hxo
    subst hxo
    exact h4 o ho

/-- Identity determination: a fresh instance (created-count bumped), a
fetched instance (updated-count bumped, the row is in the store), or a
`ValidationError` for a malformed truthy id (nothing changed). -/
theorem findBase_cases (idf : Option IdRef) (ls : LoopSt) :
    (findBase idf ls = ({ ls with created := ls.created + 1 }, .ok freshPending))
  ∨ (∃ it, findBase idf ls = ({ ls with updated := ls.updated + 1 }, .ok it.toPending) ∧
      it ∈ ls.store.items)
  ∨ (∃ e, findBase idf ls = (ls, .error e)) := by
  unfold findBase
  rcases idf with _ | ref
  · exact Or.inl (by simp only [PyM.bind_def, PyM.pure_def, incCreated_run])
  · rcases ref with n | s
    · rcases hfind : findItemById ls.store.items n with _ | it
      · exact Or.inl (by
          simp only [idTruthy, if_pos, PyM.bind_def, PyM.getStore, hfind,
            PyM.pure_def, incCreated_run])
      · refine Or.inr (Or.inl ⟨it, ?_, ?_⟩)
        · simp only [idTruthy, if_pos, PyM.bind_def, PyM.getStore, hfind,
            PyM.pure_def, incUpdated_run]
        · exact findItemById_mem hfind
    · by_cases hs : s = ""
      · exact Or.inl (by
          simp only [idTruthy, hs, PyM.bind_def, PyM.pure_def, incCreated_run, beq_self_eq_true,
            Bool.not_true, Bool.false_eq_true, if_false])
      · refine Or.inr (Or.inr ⟨"ValidationError: " ++ s ++ " is not a valid UUID", ?_⟩)
        have : idTruthy (IdRef.invalid s) = true := by
          simp [idTruthy, hs]
        simp only [PyM.bind_def, this, if_true, throw_run]

/-- Exhaustive effect analysis of one JSON loop-body run: a success settles
exactly one identity (created or updated is bumped by one); a failure leaves
the item rows untouched but may keep an identity bump made before the raise
(no rollback). -/
theorem processJsonRecord_cases (r : JsonRecord) (ls : LoopSt) (hf : ls.store.freshIds) :
    (∃ ls1, processJsonRecord r ls = (ls1, .ok ()) ∧
      ls1.created + ls1.updated = ls.created + ls.updated + 1 ∧
      ls1.failed = ls.failed ∧ ls1.errors = ls.errors ∧
      ls1.store.logs = ls.store.logs ∧ ls1.store.freshIds)
  ∨ (∃ e ls1, processJsonRecord r ls = (ls1, .error e) ∧
      ls1.store.items = ls.store.items ∧
      ls.created + ls.updated ≤ ls1.created + ls1.updated ∧
      ls1.created + ls1.updated ≤ ls.created + ls.updated + 1 ∧
      ls1.failed = ls.failed ∧ ls1.errors = ls.errors ∧
      ls1.store.logs = ls.store.logs ∧ ls1.store.freshIds) := by
  unfold processJsonRecord
  obtain ⟨refs, ls1, href, hro1⟩ := resolveRefs_refOnly r ls
  have hf1 : ls1.store.freshIds := hro1.2.2.2.2.2.2.2 hf
  rcases hcd : coerceAllDates r.scalars with e | scals
  · right
    refine ⟨e, ls1, ?_, hro1.2.2.2.2.1, ?_, ?_, hro1.2.2.1, hro1.2.2.2.1,
      hro1.2.2.2.2.2.1, hf1⟩
    · simp only [PyM.bind_def, href, hcd, liftE_err_run]
    · have h1 := hro1.1
      have h2 := hro1.2.1
      omega
    · have h1 := hro1.1
      have h2 := hro1.2.1
      omega
  · rcases findBase_cases r.idField ls1 with hb | ⟨it, hb, hmem⟩ | ⟨e, hb⟩
    · -- create path
      set ls2 : LoopSt := { ls1 with created := ls1.created + 1 } with hls2
      have hid : ({ applyScalars freshPending scals with
          location := refs.loc, purchase_currency := refs.pc,
          sold_currency := refs.sc, insured_currency := refs.ic } : PendingItem).idSlot
          = none := by
        show (applyScalars freshPending scals).idSlot = none
        rw [applyScalars_idSlot]
        rfl
      rcases saveItem_create _ hid ls2 with ⟨v, hv, hsave⟩ | ⟨e, hv, hsave⟩
      · left
        refine ⟨_,
          by simp only [PyM.bind_def, href, hcd, liftE_ok_run, hb, hsave, itemLabelsSet_run]
             rfl,
          ?_, ?_, ?_, ?_, ?_⟩
        · show ls2.created + ls2.updated = ls.created + ls.updated + 1
          have h1 := hro1.1
          have h2 := hro1.2.1
          simp only [hls2]
          omega
        · exact hro1.2.2.1
        · exact hro1.2.2.2.1
        · exact hro1.2.2.2.2.2.1
        · show Store.freshIds _
          have hfr2 : Store.freshIds ls2.store := hf1
          have happ := freshIds_appendItem
            (prepAssemble ls2.store.nextId ({ applyScalars freshPending scals with
              location := refs.loc, purchase_currency := refs.pc,
              sold_currency := refs.sc, insured_currency := refs.ic }) v)
            (by simp [prepAssemble]) hfr2
          exact freshIds_mapLabels _ _ happ
      · right
        refine ⟨e, ls2, ?_, hro1.2.2.2.2.1, ?_, ?_, hro1.2.2.1, hro1.2.2.2.1,
          hro1.2.2.2.2.2.1, hf1⟩
        · simp only [PyM.bind_def, href, hcd, liftE_ok_run, hb, hsave]
        · show ls.created + ls.updated ≤ ls2.created + ls2.updated
          have h1 := hro1.1
          have h2 := hro1.2.1
          simp only [hls2]
          omega
        · show ls2.created + ls2.updated ≤ ls.created + ls.updated + 1
          have h1 := hro1.1
          have h2 := hro1.2.1
          simp only [hls2]
          omega
    · -- update path
      set ls2 : LoopSt := { ls1 with updated := ls1.updated + 1 } with hls2
      have hid : ({ applyScalars it.toPending scals with
          location := refs.loc, purchase_currency := refs.pc,
          sold_currency := refs.sc, insured_currency := refs.ic } : PendingItem).idSlot
          = some it.id := by
        show (applyScalars it.toPending scals).idSlot = some it.id
        rw [applyScalars_idSlot]
        rfl
      rcases saveItem_update _ it.id hid ls2 with ⟨v, hv, hsave⟩ | ⟨e, hv, hsave⟩
      · left
        refine ⟨_,
          by simp only [PyM.bind_def, href, hcd, liftE_ok_run, hb, hsave, itemLabelsSet_run]
             rfl,
          ?_, ?_, ?_, ?_, ?_⟩
        · show ls2.created + ls2.updated = ls.created + ls.updated + 1
          have h1 := hro1.1
          have h2 := hro1.2.1
          simp only [hls2]
          omega
        · exact hro1.2.2.1
        · exact hro1.2.2.2.1
        · exact hro1.2.2.2.2.2.1
        · show Store.freshIds _
          have hlt : it.id < ls2.store.nextId := hf1.2.2.2 it hmem
          have hrep := freshIds_mapReplace it.id
            (prepAssemble it.id ({ applyScalars it.toPending scals with
              location := refs.loc, purchase_currency := refs.pc,
              sold_currency := refs.sc, insured_currency := refs.ic }) v)
            (by simp [prepAssemble]) hlt hf1
          exact freshIds_mapLabels _ _ hrep
      · right
        refine ⟨e, ls2, ?_, hro1.2.2.2.2.1, ?_, ?_, hro1.2.2.1, hro1.2.2.2.1,
          hro1.2.2.2.2.2.1, hf1⟩
        · simp only [PyM.bind_def, href, hcd, liftE_ok_run, hb, hsave]
        · show ls.created + ls.updated ≤ ls2.created + ls2.updated
          have h1 := hro1.1
          have h2 := hro1.2.1
          simp only [hls2]
          omega
        · show ls2.created + ls2.updated ≤ ls.created + ls.updated + 1
          have h1 := hro1.1
          have h2 := hro1.2.1
          simp only [hls2]
          omega
    · -- malformed uuid
      right
      refine ⟨e, ls1, ?_, hro1.2.2.2.2.1, ?_, ?_, hro1.2.2.1, hro1.2.2.2.1,
        hro1.2.2.2.2.2.1, hf1⟩
      · simp only [PyM.bind_def, href, hcd, liftE_ok_run, hb]
      · have h1 := hro1.1
        have h2 := hro1.2.1
        omega
      · have h1 := hro1.1
        have h2 := hro1.2.1
        omega

/-- The JSON handler catch: a success settles one identity; a failure bumps
failed-count, appends one message, leaves items untouched, and may keep one
identity bump made before the raise. -/
theorem runJsonRecord_cases (r : JsonRecord) (ls : LoopSt) (hf : ls.store.freshIds) :
    ((runJsonRecord r ls).created + (runJsonRecord r ls).updated =
        ls.created + ls.updated + 1 ∧
      (runJsonRecord r ls).failed = ls.failed ∧
      (runJsonRecord r ls).errors = ls.errors ∧
      (runJsonRecord r ls).store.logs = ls.store.logs ∧
      (runJsonRecord r ls).store.freshIds)
  ∨ ((runJsonRecord r ls).store.items = ls.store.items ∧
      ls.created + ls.updated ≤ (runJsonRecord r ls).created + (runJsonRecord r ls).updated ∧
      (runJsonRecord r ls).created + (runJsonRecord r ls).updated ≤
        ls.created + ls.updated + 1 ∧
      (runJsonRecord r ls).failed = ls.failed + 1 ∧
      (∃ e, (runJsonRecord r ls).errors = ls.errors ++ [e]) ∧
      (runJsonRecord r ls).store.logs = ls.store.logs ∧
      (runJsonRecord r ls).store.freshIds) := by
  unfold runJsonRecord
  rcases processJsonRecord_cases r ls hf with
    ⟨ls1, heq, h1, h2, h3, h4, h5⟩ | ⟨e, ls1, heq, h1, h2, h3, h4, h5, h6, h7⟩
  · rw [heq]
    exact Or.inl ⟨h1, h2, h3, h4, h5⟩
  · rw [heq]
    refine Or.inr ⟨h1, h2, h3, ?_, ⟨e, ?_⟩, h6, h7⟩
    · show ls1.failed + 1 = ls.failed + 1
      rw [h4]
    · show ls1.errors ++ [e] = ls.errors ++ [e]
      rw [h5]

/-- Loop invariant of the JSON import: failures and identity settlements
both grow, each record contributes at least one and at most one of each,
and failures append exactly one message each. -/
theorem jsonLoop_spec (rs : List JsonRecord) : ∀ ls : LoopSt, ls.store.freshIds →
    (jsonLoop rs ls).store.logs = ls.store.logs ∧
    (jsonLoop rs ls).store.freshIds ∧
    ls.created + ls.updated ≤ (jsonLoop rs ls).created + (jsonLoop rs ls).updated ∧
    ls.failed ≤ (jsonLoop rs ls).failed ∧
    ((jsonLoop rs ls).failed - ls.failed) ≤ rs.length ∧
    ((jsonLoop rs ls).created + (jsonLoop rs ls).updated - (ls.created + ls.updated)) ≤
      rs.length ∧
    rs.length ≤
      ((jsonLoop rs ls).created + (jsonLoop rs ls).updated - (ls.created + ls.updated)) +
        ((jsonLoop rs ls).failed - ls.failed) ∧
    (∃ newErrs : List String,
      (jsonLoop rs ls).errors = ls.errors ++ newErrs ∧
      newErrs.length = (jsonLoop rs ls).failed - ls.failed) := by
  induction rs with
  | nil =>
    intro ls hf
    exact ⟨rfl, hf, Nat.le_refl _, Nat.le_refl _, by simp [jsonLoop], by simp [jsonLoop],
      by simp [jsonLoop], ⟨[], by simp [jsonLoop], by simp [jsonLoop]⟩⟩
  | cons r rest ih =>
    intro ls hf
    have hstep : jsonLoop (r :: rest) ls = jsonLoop rest (runJsonRecord r ls) := rfl
    rcases runJsonRecord_cases r ls hf with
      ⟨h1, h2, h3, h4, h5⟩ | ⟨h1, h2, h3, h4, ⟨e, h5⟩, h6, h7⟩
    · obtain ⟨lg, fr, lecu, lef, hfb, hcub, hlow, ⟨ne, hne, hnel⟩⟩ :=
        ih (runJsonRecord r ls) h5
      rw [hstep]
      refine ⟨lg.trans h4, fr, ?_, ?_, ?_, ?_, ?_, ?_⟩
      · omega
      · omega
      · simp only [List.length_cons]
        omega
      · simp only [List.length_cons]
        omega
      · simp only [List.length_cons]
        omega
      · exact ⟨ne, by rw [hne, h3], by omega⟩
    · obtain ⟨lg, fr, lecu, lef, hfb, hcub, hlow, ⟨ne, hne, hnel⟩⟩ :=
        ih (runJsonRecord r ls) h7
      rw [hstep]
      refine ⟨lg.trans h6, fr, ?_, ?_, ?_, ?_, ?_, ?_⟩
      · omega
      · omega
      · simp only [List.length_cons]
        omega
      · simp only [List.length_cons]
        omega
      · simp only [List.length_cons]
        omega
      · exact ⟨e :: ne, by rw [hne, h5, List.append_assoc]; rfl, by simp; omega⟩

/-! Claim C9. -/

/-- C9: every CSV or JSON export writes exactly one ImportLog row for the
requesting user — import type `CSV Export` / `JSON Export`, status
`Success`, zero created/updated/failed counts, and a set completion
timestamp. -/
theorem c9_export_logs (st : Store) (now : Nat) :
    (exportCsv st now).1.logs = st.logs ++
      [{ import_type := "CSV Export", status := "Success", items_created := 0,
         items_updated := 0, items_failed := 0, error_message := none,
         completed_at := some now }] ∧
    (exportJson st now).1.logs = st.logs ++
      [{ import_type := "JSON Export", status := "Success", items_created := 0,
         items_updated := 0, items_failed := 0, error_message := none,
         completed_at := some now }] :=
  ⟨rfl, rfl⟩

/-! Claim C2. -/

theorem importJson_log (rs : List JsonRecord) (st : Store) (now : Nat) (hne : rs ≠ []) :
    (importJson rs st now).log = some
      { import_type := "JSON Import"
        status := importStatusJson (jsonLoop rs (initLoop st)).created
          (jsonLoop rs (initLoop st)).updated (jsonLoop rs (initLoop st)).failed
        items_created := (jsonLoop rs (initLoop st)).created
        items_updated := (jsonLoop rs (initLoop st)).updated
        items_failed := (jsonLoop rs (initLoop st)).failed
        error_message := some (logErrorText (jsonLoop rs (initLoop st)).errors)
        completed_at := some now } := by
  unfold importJson
  rw [show rs.isEmpty = false from by simpa [List.isEmpty_eq_false] using hne]
  rfl

theorem importCsv_log (rows : List CsvRow) (st : Store) (now : Nat) :
    (importCsv rows st now).log = some
      { import_type := "CSV Import"
        status := importStatusCsv (csvLoop rows (initLoop st)).created
          (csvLoop rows (initLoop st)).failed
        items_created := (csvLoop rows (initLoop st)).created
        items_updated := (csvLoop rows (initLoop st)).updated
        items_failed := (csvLoop rows (initLoop st)).failed
        error_message := some (logErrorText (csvLoop rows (initLoop st)).errors)
        completed_at := some now } := rfl

theorem importStatusJson_iff (c u f : Nat) :
    (importStatusJson c u f = "Success" ↔ f = 0) ∧
    (importStatusJson c u f = "Partial Success" ↔ f > 0 ∧ c + u > 0) ∧
    (importStatusJson c u f = "Failed" ↔ f > 0 ∧ c + u = 0) := by
  unfold importStatusJson
  by_cases h1 : f = 0
  · rw [if_pos h1]
    refine ⟨by simp [h1], ?_, ?_⟩
    · constructor
      · intro hc
        exact absurd hc (by decide)
      · rintro ⟨hf, -⟩
        omega
    · constructor
      · intro hc
        exact absurd hc (by decide)
      · rintro ⟨hf, -⟩
        omega
  · rw [if_neg h1]
    by_cases h2 : c + u > 0
    · rw [if_pos h2]
      refine ⟨?_, ?_, ?_⟩
      · constructor
        · intro hc
          exact absurd hc (by decide)
        · intro hf
          omega
      · constructor
        · intro _
          exact ⟨by omega, h2⟩
        · intro _
          rfl
      · constructor
        · intro hc
          exact absurd hc (by decide)
        · rintro ⟨-, hcu⟩
          omega
    · rw [if_neg h2]
      refine ⟨?_, ?_, ?_⟩
      · constructor
        · intro hc
          exact absurd hc (by decide)
        · intro hf
          omega
      · constructor
        · intro hc
          exact absurd hc (by decide)
        · rintro ⟨-, hcu⟩
          omega
      · constructor
        · intro _
          exact ⟨by omega, by omega⟩
        · intro _
          rfl

theorem importStatusCsv_iff (c f : Nat) :
    (importStatusCsv c f = "Success" ↔ f = 0) ∧
    (importStatusCsv c f = "Partial Success" ↔ f > 0 ∧ c > 0) ∧
    (importStatusCsv c f = "Failed" ↔ f > 0 ∧ c = 0) := by
  have := importStatusJson_iff c 0 f
  simpa [importStatusJson, importStatusCsv] using this

/-- C2: for every completed import batch the logged status is the success
status exactly when failed-count is 0, partial success exactly when some
records failed and some identity was settled, and failed exactly when no
identity was settled — for the JSON handler directly, and for the CSV
handler because its updated-count is always 0. -/
theorem c2_status_policy (rs : List JsonRecord) (rows : List CsvRow) (st st2 : Store)
    (now : Nat) (hne : rs ≠ []) (hf2 : st2.freshIds) :
    (∀ l, (importJson rs st now).log = some l →
      (l.status = "Success" ↔ l.items_failed = 0) ∧
      (l.status = "Partial Success" ↔ l.items_failed > 0 ∧ l.items_created + l.items_updated > 0) ∧
      (l.status = "Failed" ↔ l.items_failed > 0 ∧ l.items_created + l.items_updated = 0)) ∧
    (∀ l, (importCsv rows st2 now).log = some l →
      (l.status = "Success" ↔ l.items_failed = 0) ∧
      (l.status = "Partial Success" ↔ l.items_failed > 0 ∧ l.items_created + l.items_updated > 0) ∧
      (l.status = "Failed" ↔ l.items_failed > 0 ∧ l.items_created + l.items_updated = 0)) := by
  constructor
  · intro l hl
    rw [importJson_log rs st now hne] at hl
    obtain rfl := Option.some.inj hl
    exact importStatusJson_iff _ _ _
  · intro l hl
    rw [importCsv_log rows st2 now] at hl
    obtain rfl := Option.some.inj hl
    have hup : (csvLoop rows (initLoop st2)).updated = 0 :=
      (csvLoop_spec rows (initLoop st2) hf2).1
    have := importStatusCsv_iff (csvLoop rows (initLoop st2)).created
      (csvLoop rows (initLoop st2)).failed
    simpa [hup] using this

/-- Witness for C2 at a concrete batch. -/
theorem c2_status_policy_witness :
    ([recBadQty] ≠ ([] : List JsonRecord)) ∧ Store.freshIds emptyStore ∧
    (∀ l, (importJson [recBadQty] emptyStore 0).log = some l →
      (l.status = "Success" ↔ l.items_failed = 0) ∧
      (l.status = "Partial Success" ↔ l.items_failed > 0 ∧ l.items_created + l.items_updated > 0) ∧
      (l.status = "Failed" ↔ l.items_failed > 0 ∧ l.items_created + l.items_updated = 0)) ∧
    (∀ l, (importCsv [rowBadQty] emptyStore 0).log = some l →
      (l.status = "Success" ↔ l.items_failed = 0) ∧
      (l.status = "Partial Success" ↔ l.items_failed > 0 ∧ l.items_created + l.items_updated > 0) ∧
      (l.status = "Failed" ↔ l.items_failed > 0 ∧ l.items_created + l.items_updated = 0)) := by
  have hf : Store.freshIds emptyStore := by
    refine ⟨?_, ?_, ?_, ?_⟩ <;> intro x hx <;> simp [emptyStore] at hx
  have h := c2_status_policy [recBadQty] [rowBadQty] emptyStore emptyStore 0 (by simp) hf
  exact ⟨by simp, hf, h.1, h.2⟩

/-! Claims C8 and C3. -/

theorem importJson_parts (rs : List JsonRecord) (st : Store) (now : Nat) (hne : rs ≠ []) :
    (importJson rs st now).errors = (jsonLoop rs (initLoop st)).errors ∧
    (importJson rs st now).respErrors =
      (if (jsonLoop rs (initLoop st)).errors.isEmpty then none
        else some ((jsonLoop rs (initLoop st)).errors.take 10)) ∧
    (importJson rs st now).created = (jsonLoop rs (initLoop st)).created ∧
    (importJson rs st now).updated = (jsonLoop rs (initLoop st)).updated ∧
    (importJson rs st now).failed = (jsonLoop rs (initLoop st)).failed ∧
    (importJson rs st now).store.items = (jsonLoop rs (initLoop st)).store.items := by
  unfold importJson
  rw [show rs.isEmpty = false from by simpa [List.isEmpty_eq_false] using hne]
  exact ⟨rfl, rfl, rfl, rfl, rfl, rfl⟩

theorem importCsv_parts (rows : List CsvRow) (st : Store) (now : Nat) :
    (importCsv rows st now).errors = (csvLoop rows (initLoop st)).errors ∧
    (importCsv rows st now).respErrors =
      (if (csvLoop rows (initLoop st)).errors.isEmpty then none
        else some ((csvLoop rows (initLoop st)).errors.take 10)) ∧
    (importCsv rows st now).created = (csvLoop rows (initLoop st)).created ∧
    (importCsv rows st now).updated = (csvLoop rows (initLoop st)).updated ∧
    (importCsv rows st now).failed = (csvLoop rows (initLoop st)).failed ∧
    (importCsv rows st now).store.items = (csvLoop rows (initLoop st)).store.items :=
  ⟨rfl, rfl, rfl, rfl, rfl, rfl⟩

/-- C8: the completed ImportLog text carries the first 10 messages joined
verbatim, with a suppressed-count suffix exactly when more than 10
accumulated; one message accumulates per failed record (their number equals
failed-count); and the response body carries at most 10 error strings. -/
theorem c8_error_truncation (rs : List JsonRecord) (rows : List CsvRow) (st st2 : Store)
    (now : Nat) (hf : st.freshIds) (hf2 : st2.freshIds) :
    (∀ l, (importJson rs st now).log = some l →
      l.error_message = some (String.intercalate "\n" ((importJson rs st now).errors.take 10) ++
        (if (importJson rs st now).errors.length > 10 then
          "\n...and " ++ toString ((importJson rs st now).errors.length - 10) ++ " more errors"
        else "")) ∧
      (importJson rs st now).errors.length = l.items_failed) ∧
    (∀ es, (importJson rs st now).respErrors = some es → es.length ≤ 10) ∧
    (∀ l, (importCsv rows st2 now).log = some l →
      l.error_message = some (String.intercalate "\n" ((importCsv rows st2 now).errors.take 10) ++
        (if (importCsv rows st2 now).errors.length > 10 then
          "\n...and " ++ toString ((importCsv rows st2 now).errors.length - 10) ++ " more errors"
        else "")) ∧
      (importCsv rows st2 now).errors.length = l.items_failed) ∧
    (∀ es, (importCsv rows st2 now).respErrors = some es → es.length ≤ 10) := by
  by_cases hrs : rs = []
  case pos =>
    refine ⟨?_, ?_, ?_, ?_⟩
    · intro l hl
      rw [hrs] at hl
      exact absurd hl (by simp [importJson])
    · intro es hes
      rw [hrs] at hes
      exact absurd hes (by simp [importJson])
    · intro l hl
      rw [importCsv_log rows st2 now] at hl
      obtain rfl := Option.some.inj hl
      obtain ⟨he, -, -, -, -, -⟩ := importCsv_parts rows st2 now
      obtain ⟨-, -, -, -, -, -, -, ne2, hne2, hnel2⟩ := csvLoop_spec rows (initLoop st2) hf2
      refine ⟨by rw [he]; rfl, ?_⟩
      rw [he, hne2]
      simp only [initLoop, List.nil_append, List.length_nil] at hne2 hnel2 ⊢
      rw [hnel2]
      omega
    · intro es hes
      obtain ⟨-, hresp, -, -, -, -⟩ := importCsv_parts rows st2 now
      rw [hresp] at hes
      split at hes
      · exact absurd hes (by simp)
      · obtain rfl := Option.some.inj hes
        simp [List.length_take]
  case neg =>
    obtain ⟨he, hresp, -, -, -, -⟩ := importJson_parts rs st now hrs
    obtain ⟨-, -, -, -, -, -, -, ne1, hne1, hnel1⟩ := jsonLoop_spec rs (initLoop st) hf
    refine ⟨?_, ?_, ?_, ?_⟩
    · intro l hl
      rw [importJson_log rs st now hrs] at hl
      obtain rfl := Option.some.inj hl
      refine ⟨by rw [he]; rfl, ?_⟩
      rw [he, hne1]
      simp only [initLoop, List.nil_append, List.length_nil] at hne1 hnel1 ⊢
      rw [hnel1]
      omega
    · intro es hes
      rw [hresp] at hes
      split at hes
      · exact absurd hes (by simp)
      · obtain rfl := Option.some.inj hes
        simp [List.length_take]
    · intro l hl
      rw [importCsv_log rows st2 now] at hl
      obtain rfl := Option.some.inj hl
      obtain ⟨he2, -, -, -, -, -⟩ := importCsv_parts rows st2 now
      obtain ⟨-, -, -, -, -, -, -, ne2, hne2, hnel2⟩ := csvLoop_spec rows (initLoop st2) hf2
      refine ⟨by rw [he2]; rfl, ?_⟩
      rw [he2, hne2]
      simp only [initLoop, List.nil_append, List.length_nil] at hne2 hnel2 ⊢
      rw [hnel2]
      omega
    · intro es hes
      obtain ⟨-, hresp2, -, -, -, -⟩ := importCsv_parts rows st2 now
      rw [hresp2] at hes
      split at hes
      · exact absurd hes (by simp)
      · obtain rfl := Option.some.inj hes
        simp [List.length_take]

/-- Witness for C8 at a concrete batch. -/
theorem c8_error_truncation_witness :
    Store.freshIds emptyStore ∧
    (∀ l, (importJson [recBadQty] emptyStore 0).log = some l →
      l.error_message = some (String.intercalate "\n"
          ((importJson [recBadQty] emptyStore 0).errors.take 10) ++
        (if (importJson [recBadQty] emptyStore 0).errors.length > 10 then
          "\n...and " ++ toString ((importJson [recBadQty] emptyStore 0).errors.length - 10) ++
            " more errors"
        else "")) ∧
      (importJson [recBadQty] emptyStore 0).errors.length = l.items_failed) := by
  have hf : Store.freshIds emptyStore := by
    refine ⟨?_, ?_, ?_, ?_⟩ <;> intro x hx <;> simp [emptyStore] at hx
  exact ⟨hf, (c8_error_truncation [recBadQty] [rowBadQty] emptyStore emptyStore 0 hf hf).1⟩

/-- C3 counterexample: a single JSON record that fails at `save()` after
identity determination is counted both created and failed — the counter sum
is 2 for a 1-record batch. -/
theorem c3_counterexample :
    (importJson [recBadQty] emptyStore 0).created +
      (importJson [recBadQty] emptyStore 0).updated +
      (importJson [recBadQty] emptyStore 0).failed = 2 ∧
    [recBadQty].length = 1 := by
  constructor
  · rfl
  · rfl

/-- C3 amended: CSV rows are partitioned exactly by the created and failed
counters (updated stays 0); in the JSON path each record contributes at
least one and at most two counter increments (two when it fails after
identity determination), so the sum lies between n and 2n instead of
equalling n. -/
theorem c3_amended (rows : List CsvRow) (rs : List JsonRecord) (st st2 : Store) (now : Nat)
    (hf : st.freshIds) (hf2 : st2.freshIds) :
    ((importCsv rows st now).created + (importCsv rows st now).updated +
      (importCsv rows st now).failed = rows.length) ∧
    (rs.length ≤ (importJson rs st2 now).created + (importJson rs st2 now).updated +
        (importJson rs st2 now).failed) ∧
    ((importJson rs st2 now).created + (importJson rs st2 now).updated +
        (importJson rs st2 now).failed ≤ 2 * rs.length) := by
  refine ⟨?_, ?_, ?_⟩
  · obtain ⟨hu, -, -, lec, lef, hsum, -, -⟩ := csvLoop_spec rows (initLoop st) hf
    obtain ⟨-, -, hc, hup, hfl, -⟩ := importCsv_parts rows st now
    rw [hc, hup, hfl, hu]
    simp only [initLoop] at *
    omega
  · by_cases hrs : rs = []
    · subst hrs
      simp [importJson]
    · obtain ⟨-, -, hc, hup, hfl, -⟩ := importJson_parts rs st2 now hrs
      obtain ⟨-, -, lecu, lef, hfb, hcub, hlow, -⟩ := jsonLoop_spec rs (initLoop st2) hf2
      rw [hc, hup, hfl]
      simp only [initLoop] at *
      omega
  · by_cases hrs : rs = []
    · subst hrs
      simp [importJson]
    · obtain ⟨-, -, hc, hup, hfl, -⟩ := importJson_parts rs st2 now hrs
      obtain ⟨-, -, lecu, lef, hfb, hcub, hlow, -⟩ := jsonLoop_spec rs (initLoop st2) hf2
      rw [hc, hup, hfl]
      simp only [initLoop] at *
      omega

/-- Witness for the amended C3 at a concrete batch. -/
theorem c3_amended_witness :
    Store.freshIds emptyStore ∧
    ((importCsv [rowBadQty] emptyStore 0).created + (importCsv [rowBadQty] emptyStore 0).updated +
      (importCsv [rowBadQty] emptyStore 0).failed = [rowBadQty].length) ∧
    ([recBadQty].length ≤ (importJson [recBadQty] emptyStore 0).created +
        (importJson [recBadQty] emptyStore 0).updated +
        (importJson [recBadQty] emptyStore 0).failed) := by
  have hf : Store.freshIds emptyStore := by
    refine ⟨?_, ?_, ?_, ?_⟩ <;> intro x hx <;> simp [emptyStore] at hx
  have h := c3_amended [rowBadQty] [recBadQty] emptyStore emptyStore 0 hf hf
  exact ⟨hf, h.1, h.2.1⟩

/-! Claim C1. -/

/-- C1 counterexample: the record resolves (creates) a Location, then its
save raises on the unparseable quantity; the batch records one failure, yet
created-count was also bumped and the new Location row persists — the store
is not left unchanged for the failed record (only the Item rows are). -/
theorem c1_counterexample :
    (importJson [recGarageBadQty] emptyStore 0).failed = 1 ∧
    (importJson [recGarageBadQty] emptyStore 0).created = 1 ∧
    (importJson [recGarageBadQty] emptyStore 0).store.locations = [⟨0, "Garage", ""⟩] ∧
    (importJson [recGarageBadQty] emptyStore 0).store.items = [] :=
  ⟨rfl, rfl, rfl, rfl⟩

/-- C1 amended: an exception during a record increments that record's
failed-count and never aborts the remaining records (the handler catches and
the loop continues structurally), and no partially-written Item is possible:
a failed record leaves the Item rows exactly unchanged.  However —
unlike the claim — reference entities created for the record before the
raise persist, and in the JSON path an identity-counter bump made before the
raise also persists. -/
theorem c1_amended (r : JsonRecord) (row : CsvRow) (ls : LoopSt) (hf : ls.store.freshIds) :
    ((runJsonRecord r ls).failed = ls.failed + 1 →
      (runJsonRecord r ls).store.items = ls.store.items) ∧
    ((runCsvRow row ls).failed = ls.failed + 1 →
      (runCsvRow row ls).store.items = ls.store.items) := by
  constructor
  · intro hfail
    rcases runJsonRecord_cases r ls hf with ⟨-, h2, -, -, -⟩ | ⟨h1, -⟩
    · omega
    · exact h1
  · intro hfail
    rcases runCsvRow_cases row ls hf with ⟨it, -, -, -, h4, -⟩ | ⟨h1, -⟩
    · omega
    · exact h1

/-- Witness for the amended C1 at a concrete failing record and row. -/
theorem c1_amended_witness :
    Store.freshIds emptyStore ∧
    ((runJsonRecord recGarageBadQty (initLoop emptyStore)).failed =
        (initLoop emptyStore).failed + 1 →
      (runJsonRecord recGarageBadQty (initLoop emptyStore)).store.items =
        (initLoop emptyStore).store.items) ∧
    ((runCsvRow rowBadQty (initLoop emptyStore)).failed = (initLoop emptyStore).failed + 1 →
      (runCsvRow rowBadQty (initLoop emptyStore)).store.items =
        (initLoop emptyStore).store.items) := by
  have hf : Store.freshIds emptyStore := by
    refine ⟨?_, ?_, ?_, ?_⟩ <;> intro x hx <;> simp [emptyStore] at hx
  have h := c1_amended recGarageBadQty rowBadQty (initLoop emptyStore) hf
  exact ⟨hf, h.1, h.2⟩

/-! Claim C7. -/

theorem fmtMDY_ne_empty (d : Date) : (fmtMDY d == "") = false := by
  rw [beq_eq_false_iff_ne]
  intro hcontra
  have : (fmtMDY d).data = [] := by rw [hcontra]
  rw [fmtMDY_data] at this
  simp [pad2L] at this

/-- C7 counterexample: a JSON record whose purchase date is `03/05/2024`
imports without failing, but the date is dropped to NULL — the JSON path
does not try the `MM/DD/YYYY` fallback, although the value parses under the
CSV fallback chain. -/
theorem c7_counterexample :
    (importJson [recSlashDate] emptyStore 0).created = 1 ∧
    (importJson [recSlashDate] emptyStore 0).failed = 0 ∧
    (importJson [recSlashDate] emptyStore 0).store.items.map
      (fun it => it.purchase_date) = [none] ∧
    csvParseDate "03/05/2024" = some ⟨2024, 3, 5⟩ :=
  ⟨rfl, rfl, rfl, rfl⟩

/-- C7 amended: the CSV path parses `YYYY-MM-DD` (tried first) and
`MM/DD/YYYY` to the same calendar date and leaves the field absent on
anything else; the JSON path accepts only ISO `YYYY-MM-DD` — the same date
written `MM/DD/YYYY` is silently dropped to absent — and a string that
matches no accepted format leaves the field absent without failing the
record (the date coercion returns a value, never an exception, on any
string). -/
theorem c7_amended (d : Date) (s : String) (hd : d.valid = true) (hs : s ≠ "") :
    csvParseDate (fmtYMD d) = some d ∧
    csvParseDate (fmtMDY d) = some d ∧
    fromisoformatDate (fmtYMD d) = some d ∧
    fromisoformatDate (fmtMDY d) = none ∧
    csvDateCell (fmtYMD d) = .vdate d ∧
    csvDateCell (fmtMDY d) = .vdate d ∧
    (csvParseDate s = none → csvDateCell s = .vnone) ∧
    coerceDateEntry (.vstr s) = .ok (match fromisoformatDate s with
      | some d2 => .vdate d2
      | none => .vnone) := by
  refine ⟨csvParse_fmtYMD d hd, csvParse_fmtMDY d hd, fromiso_fmtYMD d hd,
    fromiso_fmtMDY d hd, ?_, ?_, ?_, ?_⟩
  · unfold csvDateCell
    rw [fmtYMD_ne_empty d]
    simp only [Bool.false_eq_true, if_false, csvParse_fmtYMD d hd]
  · unfold csvDateCell
    rw [fmtMDY_ne_empty d]
    simp only [Bool.false_eq_true, if_false, csvParse_fmtMDY d hd]
  · intro hnone
    unfold csvDateCell
    by_cases hb : s == ""
    · rw [if_pos hb]
    · simp only [hb, Bool.false_eq_true, if_false, hnone]
  · unfold coerceDateEntry
    have ht : PyVal.truthy (.vstr s) = true := by
      simp [PyVal.truthy, hs]
    rw [if_pos ht]

/-- Witness for the amended C7 at a concrete date and string. -/
theorem c7_amended_witness :
    (Date.valid ⟨2024, 3, 5⟩ = true) ∧ ("not-a-date" ≠ "") ∧
    csvParseDate (fmtYMD ⟨2024, 3, 5⟩) = some ⟨2024, 3, 5⟩ ∧
    csvParseDate (fmtMDY ⟨2024, 3, 5⟩) = some ⟨2024, 3, 5⟩ ∧
    fromisoformatDate (fmtMDY ⟨2024, 3, 5⟩) = none ∧
    (csvParseDate "not-a-date" = none → csvDateCell "not-a-date" = .vnone) := by
  have hd : Date.valid ⟨2024, 3, 5⟩ = true := by decide
  have hs : "not-a-date" ≠ "" := by decide
  have h := c7_amended ⟨2024, 3, 5⟩ "not-a-date" hd hs
  exact ⟨hd, hs, h.1, h.2.1, h.2.2.2.1, h.2.2.2.2.2.2.1⟩

/-! Claim C6. -/

/-- C6 counterexample: a CSV row whose quantity cell is `"abc"` fails the
record — `int()` raises `ValueError` and no default is applied — although
the claim says an unparseable quantity never fails the record. -/
theorem c6_counterexample :
    (importCsv [rowBadQty] emptyStore 0).failed = 1 ∧
    (importCsv [rowBadQty] emptyStore 0).created = 0 ∧
    (importCsv [rowBadQty] emptyStore 0).store.items = [] ∧
    pyInt "abc" = none := by
  refine ⟨?_, ?_, ?_, ?_⟩ <;> rfl

theorem prepDate_csvDateCell (s : String) : ∃ o, prepDate (csvDateCell s) = .ok o := by
  unfold csvDateCell
  by_cases h : s == ""
  · exact ⟨none, by rw [if_pos h]; rfl⟩
  · simp only [h, Bool.false_eq_true, if_false]
    rcases csvParseDate s with _ | d
    · exact ⟨none, rfl⟩
    · exact ⟨some d, rfl⟩

theorem prepDec_csvDecCell (s : String) : ∃ o, prepDec (csvDecCell s) = .ok o := by
  unfold csvDecCell
  by_cases h : s == ""
  · exact ⟨none, by rw [if_pos h]; rfl⟩
  · simp only [h, Bool.false_eq_true, if_false]
    rcases pyFloat s with _ | q
    · exact ⟨none, rfl⟩
    · exact ⟨some q, rfl⟩

/-- Every fresh CSV item with a coerced non-negative integer quantity passes
all the save-time column coercions: the quantity cell is the only cell whose
coercion can raise in the CSV path. -/
theorem csvPending_saves (row : CsvRow) (n : Int) (hn : 0 ≤ n) (loc pc sc ic : Option Nat) :
    ∃ v, prepScalars (csvPending row (PyVal.vnum (n : Rat)) loc pc sc ic) = .ok v ∧
      v.qty = n := by
  obtain ⟨pd, hpd⟩ := prepDate_csvDateCell (pyStrip (rowGet row "Purchase Date" ""))
  obtain ⟨we, hwe⟩ := prepDate_csvDateCell (pyStrip (rowGet row "Warranty Expires" ""))
  obtain ⟨sd, hsd⟩ := prepDate_csvDateCell (pyStrip (rowGet row "Sold Date" ""))
  obtain ⟨pp, hpp⟩ := prepDec_csvDecCell (pyStrip (rowGet row "Purchase Price" ""))
  obtain ⟨sp, hsp⟩ := prepDec_csvDecCell (pyStrip (rowGet row "Sold Price" ""))
  obtain ⟨iv, hiv⟩ := prepDec_csvDecCell (pyStrip (rowGet row "Insured Value" ""))
  have hq : prepQuantity (PyVal.vnum (n : Rat)) = .ok n := by
    simp only [prepQuantity, ratTrunc_intCast]
    rw [if_pos hn]
  refine ⟨⟨pyStrip (rowGet row "Name" ""), n,
    csvBoolCell (rowGet row "Important" ""), csvBoolCell (rowGet row "Sold" ""),
    csvBoolCell (rowGet row "Insured" ""), pd, we, sd, pp, sp, iv⟩, ?_, rfl⟩
  unfold prepScalars
  show (prepName (PyVal.vstr _) >>= _) = _
  rw [show ∀ s, prepName (PyVal.vstr s) = .ok s from fun _ => rfl, exc_ok_bind]
  rw [show (csvPending row (PyVal.vnum (n : Rat)) loc pc sc ic).quantity =
    PyVal.vnum (n : Rat) from rfl, hq, exc_ok_bind]
  rw [show prepBool (csvPending row (PyVal.vnum (n : Rat)) loc pc sc ic).important =
    .ok (csvBoolCell (rowGet row "Important" "")) from rfl, exc_ok_bind]
  rw [show prepBool (csvPending row (PyVal.vnum (n : Rat)) loc pc sc ic).sold =
    .ok (csvBoolCell (rowGet row "Sold" "")) from rfl, exc_ok_bind]
  rw [show prepBool (csvPending row (PyVal.vnum (n : Rat)) loc pc sc ic).insured =
    .ok (csvBoolCell (rowGet row "Insured" "")) from rfl, exc_ok_bind]
  rw [show (csvPending row (PyVal.vnum (n : Rat)) loc pc sc ic).purchase_date =
    csvDateCell (pyStrip (rowGet row "Purchase Date" "")) from rfl, hpd, exc_ok_bind]
  rw [show (csvPending row (PyVal.vnum (n : Rat)) loc pc sc ic).warranty_expires =
    csvDateCell (pyStrip (rowGet row "Warranty Expires" "")) from rfl, hwe, exc_ok_bind]
  rw [show (csvPending row (PyVal.vnum (n : Rat)) loc pc sc ic).sold_date =
    csvDateCell (pyStrip (rowGet row "Sold Date" "")) from rfl, hsd, exc_ok_bind]
  rw [show (csvPending row (PyVal.vnum (n : Rat)) loc pc sc ic).purchase_price =
    csvDecCell (pyStrip (rowGet row "Purchase Price" "")) from rfl, hpp, exc_ok_bind]
  rw [show (csvPending row (PyVal.vnum (n : Rat)) loc pc sc ic).sold_price =
    csvDecCell (pyStrip (rowGet row "Sold Price" "")) from rfl, hsp, exc_ok_bind]
  rw [show (csvPending row (PyVal.vnum (n : Rat)) loc pc sc ic).insured_value =
    csvDecCell (pyStrip (rowGet row "Insured Value" "")) from rfl, hiv, exc_ok_bind]

/-- C6 amended: a blank or absent quantity cell defaults the quantity to 1
and never fails the row; a parseable non-negative value is stored as given;
but — unlike the claim — a non-blank unparseable cell raises `ValueError`
inside the per-record try and fails the record instead of defaulting. -/
theorem c6_amended (row : CsvRow) (ls : LoopSt) (hf : ls.store.freshIds) :
    (pyStrip (rowGet row "Quantity" "") ≠ "" → pyInt (rowGet row "Quantity" "1") = none →
      (runCsvRow row ls).failed = ls.failed + 1 ∧
      (runCsvRow row ls).store.items = ls.store.items) ∧
    (pyStrip (rowGet row "Quantity" "") = "" →
      ∃ it, (runCsvRow row ls).store.items = ls.store.items ++ [it] ∧ it.quantity = 1) ∧
    (∀ m : Int, pyStrip (rowGet row "Quantity" "") ≠ "" →
      pyInt (rowGet row "Quantity" "1") = some m → 0 ≤ m →
      ∃ it, (runCsvRow row ls).store.items = ls.store.items ++ [it] ∧ it.quantity = m) := by
  refine ⟨?_, ?_, ?_⟩
  · intro hnb hnone
    rcases runCsvRow_cases row ls hf with
      ⟨it, -, -, -, -, -, -, -, -, -, hqd⟩ | ⟨h1, -, -, h4, -, -, -, -⟩
    · rcases hqd with hb | ⟨m, hm⟩
      · exact absurd hb hnb
      · rw [hm] at hnone
        exact absurd hnone (by simp)
    · exact ⟨h4, h1⟩
  · intro hb
    rcases runCsvRow_cases row ls hf with
      ⟨it, h1, -, -, -, -, -, -, h8, -⟩ | ⟨-, -, -, -, -, -, -, hcause⟩
    · exact ⟨it, h1, h8 hb⟩
    · exfalso
      rcases hcause with ⟨hnb, -⟩ | ⟨loc2, pc2, sc2, ic2, e2, ⟨-, herr⟩ | ⟨m, hnb, -, -⟩⟩
      · exact hnb hb
      · obtain ⟨v, hok, -⟩ := csvPending_saves row 1 (by omega) loc2 pc2 sc2 ic2
        rw [show ((1 : Int) : Rat) = (1 : Rat) from by norm_num] at hok
        rw [hok] at herr
        exact absurd herr (by simp)
      · exact hnb hb
  · intro m hnb hm hmn
    rcases runCsvRow_cases row ls hf with
      ⟨it, h1, -, -, -, -, -, -, -, h9, -⟩ | ⟨-, -, -, -, -, -, -, hcause⟩
    · exact ⟨it, h1, h9 m hm hnb⟩
    · exfalso
      rcases hcause with ⟨-, hnone⟩ | ⟨loc2, pc2, sc2, ic2, e2, ⟨hb, -⟩ | ⟨m2, -, hm2, herr⟩⟩
      · rw [hm] at hnone
        exact absurd hnone (by simp)
      · exact hnb hb
      · obtain rfl : m = m2 := Option.some.inj (hm.symm.trans hm2)
        obtain ⟨v, hok, -⟩ := csvPending_saves row m hmn loc2 pc2 sc2 ic2
        rw [hok] at herr
        exact absurd herr (by simp)

/-- Witness for the amended C6 at concrete rows: a blank cell gives
quantity 1, the cell `"5"` gives quantity 5. -/
theorem c6_amended_witness :
    Store.freshIds emptyStore ∧
    (pyStrip (rowGet rowGarage "Quantity" "") = "" →
      ∃ it, (runCsvRow rowGarage (initLoop emptyStore)).store.items =
        (initLoop emptyStore).store.items ++ [it] ∧ it.quantity = 1) ∧
    (∀ m : Int, pyStrip (rowGet [("Name", "q"), ("Quantity", "5")] "Quantity" "") ≠ "" →
      pyInt (rowGet [("Name", "q"), ("Quantity", "5")] "Quantity" "1") = some m → 0 ≤ m →
      ∃ it, (runCsvRow [("Name", "q"), ("Quantity", "5")] (initLoop emptyStore)).store.items =
        (initLoop emptyStore).store.items ++ [it] ∧ it.quantity = m) := by
  have hf : Store.freshIds emptyStore := by
    refine ⟨?_, ?_, ?_, ?_⟩ <;> intro x hx <;> simp [emptyStore] at hx
  exact ⟨hf, (c6_amended rowGarage (initLoop emptyStore) hf).2.1,
    (c6_amended [("Name", "q"), ("Quantity", "5")] (initLoop emptyStore) hf).2.2⟩

theorem findLocByName_none_count (locs : List Location) (nm : String)
    (h : findLocByName locs nm = none) : countLocName locs nm = 0 := by
  induction locs with
  | nil => rfl
  | cons l rest ih =>
    unfold findLocByName at h
    by_cases hl : l.name = nm
    · rw [if_pos hl] at h
      exact absurd h (by simp)
    · rw [if_neg hl] at h
      simp only [countLocName, List.filter_cons, beq_iff_eq, hl, ite_false]
      exact ih h

theorem findLocByName_some_count (locs : List Location) (nm : String) (l : Location)
    (h : findLocByName locs nm = some l) : 1 ≤ countLocName locs nm := by
  induction locs with
  | nil => exact absurd h (by simp [findLocByName])
  | cons x rest ih =>
    unfold findLocByName at h
    by_cases hl : x.name = nm
    · simp only [countLocName, List.filter_cons, beq_iff_eq, hl, ite_true, List.length_cons]
      omega
    · rw [if_neg hl] at h
      simp only [countLocName, List.filter_cons, beq_iff_eq, hl, ite_false]
      exact ih h

theorem countLocName_append1 (locs : List Location) (i : Nat) (nm d : String) :
    countLocName (locs ++ [⟨i, nm, d⟩]) nm = countLocName locs nm + 1 := by
  simp [countLocName, List.filter_append]

theorem findLocByName_append_none (locs : List Location) (nm : String) (l : Location)
    (h : findLocByName locs nm = none) :
    findLocByName (locs ++ [l]) nm = if l.name = nm then some l else none := by
  induction locs with
  | nil => rfl
  | cons x rest ih =>
    unfold findLocByName at h
    by_cases hl : x.name = nm
    · rw [if_pos hl] at h
      exact absurd h (by simp)
    · rw [if_neg hl] at h
      show (if x.name = nm then some x else findLocByName (rest ++ [l]) nm) = _
      rw [if_neg hl, ih h]

theorem findLabelByName_none_count (labs : List Label) (nm : String)
    (h : findLabelByName labs nm = none) : countLabelName labs nm = 0 := by
  induction labs with
  | nil => rfl
  | cons l rest ih =>
    unfold findLabelByName at h
    by_cases hl : l.name = nm
    · rw [if_pos hl] at h
      exact absurd h (by simp)
    · rw [if_neg hl] at h
      simp only [countLabelName, List.filter_cons, beq_iff_eq, hl, ite_false]
      exact ih h

theorem findLabelByName_some_count (labs : List Label) (nm : String) (l : Label)
    (h : findLabelByName labs nm = some l) : 1 ≤ countLabelName labs nm := by
  induction labs with
  | nil => exact absurd h (by simp [findLabelByName])
  | cons x rest ih =>
    unfold findLabelByName at h
    by_cases hl : x.name = nm
    · simp only [countLabelName, List.filter_cons, beq_iff_eq, hl, ite_true, List.length_cons]
      omega
    · rw [if_neg hl] at h
      simp only [countLabelName, List.filter_cons, beq_iff_eq, hl, ite_false]
      exact ih h

theorem countLabelName_append1 (labs : List Label) (i : Nat) (nm c : String) :
    countLabelName (labs ++ [⟨i, nm, c⟩]) nm = countLabelName labs nm + 1 := by
  simp [countLabelName, List.filter_append]

theorem findLabelByName_append_none (labs : List Label) (nm : String) (l : Label)
    (h : findLabelByName labs nm = none) :
    findLabelByName (labs ++ [l]) nm = if l.name = nm then some l else none := by
  induction labs with
  | nil => rfl
  | cons x rest ih =>
    unfold findLabelByName at h
    by_cases hl : x.name = nm
    · rw [if_pos hl] at h
      exact absurd h (by simp)
    · rw [if_neg hl] at h
      show (if x.name = nm then some x else findLabelByName (rest ++ [l]) nm) = _
      rw [if_neg hl, ih h]

theorem findCurrByCode_none_count (curs : List Currency) (cd : String)
    (h : findCurrByCode curs cd = none) : countCurrCode curs cd = 0 := by
  induction curs with
  | nil => rfl
  | cons c rest ih =>
    unfold findCurrByCode at h
    by_cases hl : c.code = cd
    · rw [if_pos hl] at h
      exact absurd h (by simp)
    · rw [if_neg hl] at h
      simp only [countCurrCode, List.filter_cons, beq_iff_eq, hl, ite_false]
      exact ih h

theorem findCurrByCode_some_count (curs : List Currency) (cd : String) (c : Currency)
    (h : findCurrByCode curs cd = some c) : 1 ≤ countCurrCode curs cd := by
  induction curs with
  | nil => exact absurd h (by simp [findCurrByCode])
  | cons x rest ih =>
    unfold findCurrByCode at h
    by_cases hl : x.code = cd
    · simp only [countCurrCode, List.filter_cons, beq_iff_eq, hl, ite_true, List.length_cons]
      omega
    · rw [if_neg hl] at h
      simp only [countCurrCode, List.filter_cons, beq_iff_eq, hl, ite_false]
      exact ih h

theorem countCurrCode_append1 (curs : List Currency) (i : Nat) (cd nm sy : String) :
    countCurrCode (curs ++ [⟨i, cd, nm, sy⟩]) cd = countCurrCode curs cd + 1 := by
  simp [countCurrCode, List.filter_append]

theorem findCurrByCode_append_none (curs : List Currency) (cd : String) (c : Currency)
    (h : findCurrByCode curs cd = none) :
    findCurrByCode (curs ++ [c]) cd = if c.code = cd then some c else none := by
  induction curs with
  | nil => rfl
  | cons x rest ih =>
    unfold findCurrByCode at h
    by_cases hl : x.code = cd
    · rw [if_pos hl] at h
      exact absurd h (by simp)
    · rw [if_neg hl] at h
      show (if x.code = cd then some x else findCurrByCode (rest ++ [c]) cd) = _
      rw [if_neg hl, ih h]

/-- A CSV row whose quantity cell is blank or holds a non-negative integer
literal is processed successfully: the error branch of the per-row try is
unreachable because every other CSV cell coercion is skip-on-failure. -/
theorem runCsvRow_success (row : CsvRow) (ls : LoopSt) (hf : ls.store.freshIds)
    (hok : pyStrip (rowGet row "Quantity" "") = "" ∨
      ∃ m : Int, pyInt (rowGet row "Quantity" "1") = some m ∧ 0 ≤ m) :
    (runCsvRow row ls).created = ls.created + 1 ∧
    (runCsvRow row ls).updated = ls.updated ∧
    (runCsvRow row ls).failed = ls.failed ∧
    (runCsvRow row ls).store.logs = ls.store.logs ∧
    (runCsvRow row ls).store.freshIds ∧
    ∃ it, (runCsvRow row ls).store.items = ls.store.items ++ [it] := by
  rcases runCsvRow_cases row ls hf with
    ⟨it, h1, h2, h3, h4, -, h6, h7, -, -⟩ | ⟨-, -, -, -, -, -, -, hcause⟩
  · exact ⟨h2, h3, h4, h6, h7, it, h1⟩
  · exfalso
    rcases hcause with ⟨hnb, hnone⟩ |
      ⟨loc2, pc2, sc2, ic2, e2, ⟨hb, herr⟩ | ⟨m2, hnb, hm2, herr⟩⟩
    · rcases hok with hb | ⟨m, hm, -⟩
      · exact hnb hb
      · rw [hm] at hnone
        exact absurd hnone (by simp)
    · obtain ⟨v, hok1, -⟩ := csvPending_saves row 1 (by omega) loc2 pc2 sc2 ic2
      rw [show ((1 : Int) : Rat) = (1 : Rat) from by norm_num] at hok1
      rw [hok1] at herr
      exact absurd herr (by simp)
    · rcases hok with hb | ⟨m, hm, hm0⟩
      · exact hnb hb
      · have hmm : m2 = m := Option.some.inj (hm2.symm.trans hm)
        obtain ⟨v, hok1, -⟩ := csvPending_saves row m2 (by omega) loc2 pc2 sc2 ic2
        rw [hok1] at herr
        exact absurd herr (by simp)

/-- A batch of such rows is imported with zero failures: one fresh item per
row, updated-count and the logs untouched. -/
theorem csvLoop_success (rows : List CsvRow) : ∀ ls : LoopSt, ls.store.freshIds →
    (∀ row ∈ rows, pyStrip (rowGet row "Quantity" "") = "" ∨
      ∃ m : Int, pyInt (rowGet row "Quantity" "1") = some m ∧ 0 ≤ m) →
    (csvLoop rows ls).created = ls.created + rows.length ∧
    (csvLoop rows ls).updated = ls.updated ∧
    (csvLoop rows ls).failed = ls.failed ∧
    (csvLoop rows ls).store.logs = ls.store.logs ∧
    (csvLoop rows ls).store.freshIds ∧
    ∃ newItems : List Item, (csvLoop rows ls).store.items = ls.store.items ++ newItems ∧
      newItems.length = rows.length := by
  induction rows with
  | nil =>
    intro ls hf _
    exact ⟨by simp [csvLoop], rfl, rfl, rfl, hf, [], by simp [csvLoop], rfl⟩
  | cons row rest ih =>
    intro ls hf hall
    have hstep : csvLoop (row :: rest) ls = csvLoop rest (runCsvRow row ls) := rfl
    obtain ⟨hc, hu, hfl, hlg, hfr, it, hit⟩ :=
      runCsvRow_success row ls hf (hall row (by simp))
    obtain ⟨hc2, hu2, hfl2, hlg2, hfr2, ni, hni, hnil⟩ :=
      ih (runCsvRow row ls) hfr (fun r hr => hall r (by simp [hr]))
    rw [hstep]
    refine ⟨?_, hu2.trans hu, hfl2.trans hfl, hlg2.trans hlg, hfr2,
      it :: ni, ?_, by simp [hnil]⟩
    · rw [hc2, hc]
      simp only [List.length_cons]
      omega
    · rw [hni, hit, List.append_assoc]
      rfl

theorem rowGet_export_quantity (st : Store) (it : Item) (d : String) :
    rowGet (exportCsvRowOf st it) "Quantity" d = intStr it.quantity := rfl

/-- C10: the CSV importer never takes an update path — the updated-count of
the summary and of the ImportLog row is always 0 and every created item is a
new row appended to the store — so re-importing a CSV export of a store whose
item quantities respect the CHECK constraint creates one fresh item per
exported item, with zero failures, doubling the item population instead of
updating in place. -/
theorem c10_csv_always_creates (rows : List CsvRow) (st : Store) (now : Nat)
    (hf : st.freshIds) (hq : ∀ it ∈ st.items, 0 ≤ it.quantity) :
    (importCsv rows st now).updated = 0 ∧
    (∀ lg, (importCsv rows st now).log = some lg → lg.items_updated = 0) ∧
    (∃ newItems : List Item,
      (importCsv rows st now).store.items = st.items ++ newItems ∧
      newItems.length = (importCsv rows st now).created) ∧
    (importCsv (exportCsv st now).2 st now).created = st.items.length ∧
    (importCsv (exportCsv st now).2 st now).failed = 0 ∧
    (importCsv (exportCsv st now).2 st now).store.items.length = 2 * st.items.length := by
  obtain ⟨hu, -, -, -, -, -, ⟨ni, hni, hnil⟩, -⟩ := csvLoop_spec rows (initLoop st) hf
  have hexp : ∀ row ∈ (exportCsv st now).2, pyStrip (rowGet row "Quantity" "") = "" ∨
      ∃ m : Int, pyInt (rowGet row "Quantity" "1") = some m ∧ 0 ≤ m := by
    intro row hrow
    have hr : (exportCsv st now).2 = st.items.map (exportCsvRowOf st) := rfl
    rw [hr] at hrow
    obtain ⟨it, hit, rfl⟩ := List.mem_map.mp hrow
    right
    refine ⟨it.quantity, ?_, hq it hit⟩
    rw [rowGet_export_quantity]
    exact pyInt_intStr _ (hq it hit)
  obtain ⟨hc2, hu2, hfl2, -, -, new, hnew, hlen⟩ :=
    csvLoop_success (exportCsv st now).2 (initLoop st) hf hexp
  have h0 : (initLoop st).created = 0 := rfl
  rw [h0] at hnil hc2
  refine ⟨hu, ?_, ⟨ni, hni, ?_⟩, ?_, hfl2, ?_⟩
  · intro lg hlg
    have h := Option.some.inj hlg
    rw [← h]
    exact hu
  · show ni.length = (csvLoop rows (initLoop st)).created
    rw [hnil]
    omega
  · show (csvLoop (exportCsv st now).2 (initLoop st)).created = st.items.length
    rw [hc2]
    have hr : (exportCsv st now).2 = st.items.map (exportCsvRowOf st) := rfl
    rw [hr, List.length_map, Nat.zero_add]
  · show (csvLoop (exportCsv st now).2 (initLoop st)).store.items.length =
      2 * st.items.length
    rw [hnew]
    show (st.items ++ new).length = 2 * st.items.length
    rw [List.length_append, hlen]
    have hr : (exportCsv st now).2 = st.items.map (exportCsvRowOf st) := rfl
    rw [hr, List.length_map]
    omega

/-- Witness for C10 at a concrete one-item store: re-importing its CSV export
creates exactly one new item and leaves two rows. -/
theorem c10_csv_always_creates_witness :
    Store.freshIds wStore ∧ (∀ it ∈ wStore.items, 0 ≤ it.quantity) ∧
    (importCsv (exportCsv wStore 0).2 wStore 0).created = wStore.items.length ∧
    (importCsv (exportCsv wStore 0).2 wStore 0).failed = 0 ∧
    (importCsv (exportCsv wStore 0).2 wStore 0).store.items.length =
      2 * wStore.items.length := by
  have hf : Store.freshIds wStore := by
    refine ⟨?_, ?_, ?_, ?_⟩ <;> intro x hx
    · simp [wStore] at hx
    · simp [wStore] at hx
    · simp [wStore] at hx
    · have hx' : x = wItem := by simpa [wStore] using hx
      subst hx'
      decide
  have hq : ∀ it ∈ wStore.items, 0 ≤ it.quantity := by
    intro it hit
    have hx' : it = wItem := by simpa [wStore] using hit
    subst hx'
    decide
  obtain ⟨-, -, -, h4, h5, h6⟩ := c10_csv_always_creates [] wStore 0 hf hq
  exact ⟨hf, hq, h4, h5, h6⟩

/-- C5: get-or-create resolution of a Location name, Label name or Currency
code is idempotent — a second resolution of the same natural key returns the
same entity id and leaves the store unchanged — and after one resolution the
store holds `max(previous count, 1)` entities under that key, so resolution
never creates a second entity for a key that already has one; concretely,
CSV-importing two rows that both reference a location named Garage into an
empty store leaves exactly one Location named Garage. -/
theorem c5_reference_dedup (nm col cd sy : String) (ls : LoopSt) :
    (∃ lid ls1, getOrCreateLocation nm ls = (ls1, .ok lid) ∧
      getOrCreateLocation nm ls1 = (ls1, .ok lid) ∧
      countLocName ls1.store.locations nm = max (countLocName ls.store.locations nm) 1) ∧
    (∃ lid ls1, getOrCreateLabel nm col ls = (ls1, .ok lid) ∧
      getOrCreateLabel nm col ls1 = (ls1, .ok lid) ∧
      countLabelName ls1.store.labels nm = max (countLabelName ls.store.labels nm) 1) ∧
    (∃ cid ls1, getOrCreateCurrency cd nm sy ls = (ls1, .ok cid) ∧
      getOrCreateCurrency cd nm sy ls1 = (ls1, .ok cid) ∧
      countCurrCode ls1.store.currencies cd = max (countCurrCode ls.store.currencies cd) 1) ∧
    countLocName (importCsv [rowGarage, rowGarage] emptyStore 0).store.locations "Garage" = 1 := by
  refine ⟨?_, ?_, ?_, ?_⟩
  · rcases gocLocation_run nm ls with ⟨l, hfind, heq⟩ | ⟨hfind, heq⟩
    · exact ⟨l.id, ls, heq, heq,
        (Nat.max_eq_left (findLocByName_some_count _ _ _ hfind)).symm⟩
    · have hf2 : findLocByName
          (ls.store.locations ++ [⟨ls.store.nextId, nm, ""⟩]) nm =
          some ⟨ls.store.nextId, nm, ""⟩ := by
        rw [findLocByName_append_none _ _ _ hfind]
        simp
      refine ⟨ls.store.nextId, _, heq, ?_, ?_⟩
      · show getOrCreateLocation nm _ = _
        unfold getOrCreateLocation
        simp only [PyM.bind_def, PyM.getStore, hf2, PyM.pure_def]
      · show countLocName (ls.store.locations ++ [⟨ls.store.nextId, nm, ""⟩]) nm = _
        rw [countLocName_append1, findLocByName_none_count _ _ hfind]
        decide
  · unfold getOrCreateLabel
    rcases hfind : findLabelByName ls.store.labels nm with _ | l
    · have hf2 : findLabelByName
          (ls.store.labels ++ [⟨ls.store.nextId, nm, col⟩]) nm =
          some ⟨ls.store.nextId, nm, col⟩ := by
        rw [findLabelByName_append_none _ _ _ hfind]
        simp
      refine ⟨ls.store.nextId,
        { ls with store := { ls.store with
            labels := ls.store.labels ++ [⟨ls.store.nextId, nm, col⟩],
            nextId := ls.store.nextId + 1 } },
        by simp only [PyM.bind_def, PyM.getStore, hfind, PyM.setStore, PyM.pure_def], ?_, ?_⟩
      · simp only [PyM.bind_def, PyM.getStore, hf2, PyM.pure_def]
      · show countLabelName (ls.store.labels ++ [⟨ls.store.nextId, nm, col⟩]) nm = _
        rw [countLabelName_append1, findLabelByName_none_count _ _ hfind]
        decide
    · refine ⟨l.id, ls, by simp only [PyM.bind_def, PyM.getStore, hfind, PyM.pure_def], ?_, ?_⟩
      · simp only [PyM.bind_def, PyM.getStore, hfind, PyM.pure_def]
      · exact (Nat.max_eq_left (findLabelByName_some_count _ _ _ hfind)).symm
  · unfold getOrCreateCurrency
    rcases hfind : findCurrByCode ls.store.currencies cd with _ | c
    · have hf2 : findCurrByCode
          (ls.store.currencies ++ [⟨ls.store.nextId, cd, nm, sy⟩]) cd =
          some ⟨ls.store.nextId, cd, nm, sy⟩ := by
        rw [findCurrByCode_append_none _ _ _ hfind]
        simp
      refine ⟨ls.store.nextId,
        { ls with store := { ls.store with
            currencies := ls.store.currencies ++ [⟨ls.store.nextId, cd, nm, sy⟩],
            nextId := ls.store.nextId + 1 } },
        by simp only [PyM.bind_def, PyM.getStore, hfind, PyM.setStore, PyM.pure_def], ?_, ?_⟩
      · simp only [PyM.bind_def, PyM.getStore, hf2, PyM.pure_def]
      · show countCurrCode (ls.store.currencies ++ [⟨ls.store.nextId, cd, nm, sy⟩]) cd = _
        rw [countCurrCode_append1, findCurrByCode_none_count _ _ hfind]
        decide
    · refine ⟨c.id, ls, by simp only [PyM.bind_def, PyM.getStore, hfind, PyM.pure_def], ?_, ?_⟩
      · simp only [PyM.bind_def, PyM.getStore, hfind, PyM.pure_def]
      · exact (Nat.max_eq_left (findCurrByCode_some_count _ _ _ hfind)).symm
  · rfl

theorem findItemById_id {items : List Item} {n : Nat} {itf : Item}
    (h : findItemById items n = some itf) : itf.id = n := by
  induction items with
  | nil => simp [findItemById] at h
  | cons a rest ih =>
    unfold findItemById at h
    by_cases ha : a.id = n
    · rw [if_pos ha] at h
      rw [← Option.some.inj h]
      exact ha
    · rw [if_neg ha] at h
      exact ih h

theorem findItemById_of_mem_ids (items : List Item) (n : Nat)
    (h : n ∈ itemIds items) : ∃ itf, findItemById items n = some itf := by
  induction items with
  | nil => simp [itemIds] at h
  | cons a rest ih =>
    by_cases ha : a.id = n
    · exact ⟨a, by unfold findItemById; rw [if_pos ha]⟩
    · have hrest : n ∈ itemIds rest := by
        simp only [itemIds, List.map_cons, List.mem_cons] at h
        rcases h with h | h
        · exact absurd h.symm ha
        · simpa [itemIds] using h
      obtain ⟨itf, hfind⟩ := ih hrest
      exact ⟨itf, by unfold findItemById; rw [if_neg ha]; exact hfind⟩

theorem itemIds_mapSame (items : List Item) (f : Item → Item)
    (hpres : ∀ o ∈ items, (f o).id = o.id) :
    itemIds (items.map f) = itemIds items := by
  unfold itemIds
  rw [List.map_map]
  exact List.map_congr_left (fun o ho => hpres o ho)

theorem prepDec_optDecVal (x : Option Rat) : ∃ o, prepDec (optDecVal x) = .ok o := by
  rcases x with _ | q
  · exact ⟨none, rfl⟩
  · exact ⟨some q, rfl⟩

/-- An exported date entry survives the importer's date pre-coercion (views.py
474-480): a NULL exports as `None` and is left alone, a date exports as its
ISO string and is parsed back (an invalid stored date only falls back to
`None`); in both cases the result passes the save-time `DateField` coercion. -/
theorem prepDate_coerced (e : Option Date) :
    ∃ pd, coerceDateEntry (optStrVal (e.map fmtYMD)) = .ok pd ∧
      ∃ o, prepDate pd = .ok o := by
  rcases e with _ | d
  · exact ⟨.vnone, rfl, none, rfl⟩
  · refine ⟨match fromisoformatDate (fmtYMD d) with
      | some d2 => PyVal.vdate d2
      | none => PyVal.vnone, ?_, ?_⟩
    · show coerceDateEntry (.vstr (fmtYMD d)) = _
      unfold coerceDateEntry
      have ht : (PyVal.vstr (fmtYMD d)).truthy = true := by
        simp only [PyVal.truthy, fmtYMD_ne_empty, Bool.not_false]
      rw [if_pos ht]
    · rcases hfi : fromisoformatDate (fmtYMD d) with _ | d2
      · exact ⟨none, rfl⟩
      · exact ⟨some d2, rfl⟩

theorem coerceAllDates_exportScalars (it : Item) (e1 e2 e3 pd we sd : PyVal)
    (h1 : coerceDateEntry e1 = .ok pd) (h2 : coerceDateEntry e2 = .ok we)
    (h3 : coerceDateEntry e3 = .ok sd) :
    coerceAllDates (exportScalarsWith it e1 e2 e3) =
      .ok (exportScalarsWith it pd we sd) := by
  have hcf1 : coerceDateField (exportScalarsWith it e1 e2 e3) .purchase_date =
      .ok (exportScalarsWith it pd e2 e3) := by
    show (coerceDateEntry e1).map
      (assocSet (exportScalarsWith it e1 e2 e3) ScalarField.purchase_date) = _
    rw [h1]
    rfl
  have hcf2 : coerceDateField (exportScalarsWith it pd e2 e3) .warranty_expires =
      .ok (exportScalarsWith it pd we e3) := by
    show (coerceDateEntry e2).map
      (assocSet (exportScalarsWith it pd e2 e3) ScalarField.warranty_expires) = _
    rw [h2]
    rfl
  have hcf3 : coerceDateField (exportScalarsWith it pd we e3) .sold_date =
      .ok (exportScalarsWith it pd we sd) := by
    show (coerceDateEntry e3).map
      (assocSet (exportScalarsWith it pd we e3) ScalarField.sold_date) = _
    rw [h3]
    rfl
  unfold coerceAllDates
  rw [hcf1, exc_ok_bind, hcf2, exc_ok_bind, hcf3]

/-- A `setattr`-applied export record passes every save-time coercion when
the exported quantity is non-negative: every scalar attribute of the base
instance has been overwritten with a coercible exported value. -/
theorem exportPending_saves (it : Item) (hq : 0 ≤ it.quantity)
    (base : PendingItem) (pd we sd : PyVal)
    (hpd : ∃ o, prepDate pd = .ok o) (hwe : ∃ o, prepDate we = .ok o)
    (hsd : ∃ o, prepDate sd = .ok o) (lo pc sc ic : Option Nat) :
    ∃ v, prepScalars { applyScalars base (exportScalarsWith it pd we sd) with
      location := lo, purchase_currency := pc,
      sold_currency := sc, insured_currency := ic } = .ok v := by
  obtain ⟨pdo, hpdo⟩ := hpd
  obtain ⟨weo, hweo⟩ := hwe
  obtain ⟨sdo, hsdo⟩ := hsd
  obtain ⟨ppo, hppo⟩ := prepDec_optDecVal it.purchase_price
  obtain ⟨spo, hspo⟩ := prepDec_optDecVal it.sold_price
  obtain ⟨ivo, hivo⟩ := prepDec_optDecVal it.insured_value
  have hqok : prepQuantity (PyVal.vnum (it.quantity : Rat)) = .ok it.quantity := by
    simp only [prepQuantity, ratTrunc_intCast]
    rw [if_pos hq]
  refine ⟨⟨it.name, it.quantity, it.important, it.sold, it.insured,
    pdo, weo, sdo, ppo, spo, ivo⟩, ?_⟩
  unfold prepScalars
  show (prepName (PyVal.vstr it.name) >>= _) = _
  rw [show ∀ s, prepName (PyVal.vstr s) = .ok s from fun _ => rfl, exc_ok_bind]
  rw [show ({ applyScalars base (exportScalarsWith it pd we sd) with
      location := lo, purchase_currency := pc,
      sold_currency := sc, insured_currency := ic } : PendingItem).quantity =
    PyVal.vnum (it.quantity : Rat) from rfl, hqok, exc_ok_bind]
  rw [show prepBool ({ applyScalars base (exportScalarsWith it pd we sd) with
      location := lo, purchase_currency := pc,
      sold_currency := sc, insured_currency := ic } : PendingItem).important =
    .ok it.important from rfl, exc_ok_bind]
  rw [show prepBool ({ applyScalars base (exportScalarsWith it pd we sd) with
      location := lo, purchase_currency := pc,
      sold_currency := sc, insured_currency := ic } : PendingItem).sold =
    .ok it.sold from rfl, exc_ok_bind]
  rw [show prepBool ({ applyScalars base (exportScalarsWith it pd we sd) with
      location := lo, purchase_currency := pc,
      sold_currency := sc, insured_currency := ic } : PendingItem).insured =
    .ok it.insured from rfl, exc_ok_bind]
  rw [show ({ applyScalars base (exportScalarsWith it pd we sd) with
      location := lo, purchase_currency := pc,
      sold_currency := sc, insured_currency := ic } : PendingItem).purchase_date =
    pd from rfl, hpdo, exc_ok_bind]
  rw [show ({ applyScalars base (exportScalarsWith it pd we sd) with
      location := lo, purchase_currency := pc,
      sold_currency := sc, insured_currency := ic } : PendingItem).warranty_expires =
    we from rfl, hweo, exc_ok_bind]
  rw [show ({ applyScalars base (exportScalarsWith it pd we sd) with
      location := lo, purchase_currency := pc,
      sold_currency := sc, insured_currency := ic } : PendingItem).sold_date =
    sd from rfl, hsdo, exc_ok_bind]
  rw [show ({ applyScalars base (exportScalarsWith it pd we sd) with
      location := lo, purchase_currency := pc,
      sold_currency := sc, insured_currency := ic } : PendingItem).purchase_price =
    optDecVal it.purchase_price from rfl, hppo, exc_ok_bind]
  rw [show ({ applyScalars base (exportScalarsWith it pd we sd) with
      location := lo, purchase_currency := pc,
      sold_currency := sc, insured_currency := ic } : PendingItem).sold_price =
    optDecVal it.sold_price from rfl, hspo, exc_ok_bind]
  rw [show ({ applyScalars base (exportScalarsWith it pd we sd) with
      location := lo, purchase_currency := pc,
      sold_currency := sc, insured_currency := ic } : PendingItem).insured_value =
    optDecVal it.insured_value from rfl, hivo, exc_ok_bind]

theorem findBase_found (n : Nat) (ls : LoopSt) (itf : Item)
    (hfind : findItemById ls.store.items n = some itf) :
    findBase (some (.valid n)) ls =
      ({ ls with updated := ls.updated + 1 }, .ok itf.toPending) := by
  unfold findBase
  simp only [idTruthy, if_pos, PyM.bind_def, PyM.getStore, hfind, PyM.pure_def,
    incUpdated_run]

/-- One export record whose id is still present runs the update path and
succeeds: updated-count is bumped, no item row is added or removed (the id
multiset is untouched), and nothing else changes. -/
theorem runJsonRecord_export_update (st0 : Store) (it0 : Item) (ls : LoopSt)
    (hf : ls.store.freshIds) (hq : 0 ≤ it0.quantity)
    (hid : it0.id ∈ itemIds ls.store.items) :
    (runJsonRecord (exportJsonRecordOf st0 it0) ls).created = ls.created ∧
    (runJsonRecord (exportJsonRecordOf st0 it0) ls).updated = ls.updated + 1 ∧
    (runJsonRecord (exportJsonRecordOf st0 it0) ls).failed = ls.failed ∧
    (runJsonRecord (exportJsonRecordOf st0 it0) ls).errors = ls.errors ∧
    (runJsonRecord (exportJsonRecordOf st0 it0) ls).store.logs = ls.store.logs ∧
    (runJsonRecord (exportJsonRecordOf st0 it0) ls).store.freshIds ∧
    itemIds (runJsonRecord (exportJsonRecordOf st0 it0) ls).store.items =
      itemIds ls.store.items := by
  obtain ⟨refs, ls1, href, hro1⟩ := resolveRefs_refOnly (exportJsonRecordOf st0 it0) ls
  have hf1 : ls1.store.freshIds := hro1.2.2.2.2.2.2.2 hf
  obtain ⟨pd, hpd, hpdok⟩ := prepDate_coerced it0.purchase_date
  obtain ⟨we, hwe, hweok⟩ := prepDate_coerced it0.warranty_expires
  obtain ⟨sd, hsd, hsdok⟩ := prepDate_coerced it0.sold_date
  have hcd : coerceAllDates (exportJsonRecordOf st0 it0).scalars =
      .ok (exportScalarsWith it0 pd we sd) := by
    rw [show (exportJsonRecordOf st0 it0).scalars =
      exportScalarsWith it0 (optStrVal (it0.purchase_date.map fmtYMD))
        (optStrVal (it0.warranty_expires.map fmtYMD))
        (optStrVal (it0.sold_date.map fmtYMD)) from rfl]
    exact coerceAllDates_exportScalars it0 _ _ _ pd we sd hpd hwe hsd
  obtain ⟨itf, hfind1⟩ := findItemById_of_mem_ids ls1.store.items it0.id
    (by rw [hro1.2.2.2.2.1]; exact hid)
  have hfid : itf.id = it0.id := findItemById_id hfind1
  have hb : findBase (exportJsonRecordOf st0 it0).idField ls1 =
      ({ ls1 with updated := ls1.updated + 1 }, .ok itf.toPending) :=
    findBase_found it0.id ls1 itf hfind1
  have hidSlot : ({ applyScalars itf.toPending (exportScalarsWith it0 pd we sd) with
      location := refs.loc, purchase_currency := refs.pc,
      sold_currency := refs.sc, insured_currency := refs.ic } : PendingItem).idSlot
      = some itf.id := by
    show (applyScalars itf.toPending (exportScalarsWith it0 pd we sd)).idSlot = some itf.id
    rw [applyScalars_idSlot]
    rfl
  obtain ⟨v, hps⟩ := exportPending_saves it0 hq itf.toPending pd we sd hpdok hweok hsdok
    refs.loc refs.pc refs.sc refs.ic
  rcases saveItem_update _ itf.id hidSlot { ls1 with updated := ls1.updated + 1 } with
    ⟨v2, hv2, hsave⟩ | ⟨e, he, -⟩
  swap
  · rw [hps] at he
    exact absurd he (by simp)
  have hrun : runJsonRecord (exportJsonRecordOf st0 it0) ls =
      { ls1 with
        updated := ls1.updated + 1,
        store := { ls1.store with
          items := (ls1.store.items.map (fun o => if o.id = itf.id then
              prepAssemble itf.id
                { applyScalars itf.toPending (exportScalarsWith it0 pd we sd) with
                  location := refs.loc, purchase_currency := refs.pc,
                  sold_currency := refs.sc, insured_currency := refs.ic } v2
            else o)).map
            (fun o => if o.id = itf.id then { o with labels := refs.labelIds }
              else o) } } := by
    unfold runJsonRecord processJsonRecord
    simp only [PyM.bind_def, href, hcd, liftE_ok_run, hb, hsave, itemLabelsSet_run]
  refine ⟨?_, ?_, ?_, ?_, ?_, ?_, ?_⟩
  · rw [hrun]
    exact hro1.1
  · rw [hrun]
    show ls1.updated + 1 = ls.updated + 1
    rw [hro1.2.1]
  · rw [hrun]
    exact hro1.2.2.1
  · rw [hrun]
    exact hro1.2.2.2.1
  · rw [hrun]
    exact hro1.2.2.2.2.2.1
  · rw [hrun]
    show Store.freshIds _
    have hlt : itf.id < ls1.store.nextId := hf1.2.2.2 itf (findItemById_mem hfind1)
    have hrep := freshIds_mapReplace itf.id
      (prepAssemble itf.id
        { applyScalars itf.toPending (exportScalarsWith it0 pd we sd) with
          location := refs.loc, purchase_currency := refs.pc,
          sold_currency := refs.sc, insured_currency := refs.ic } v2)
      (by simp [prepAssemble]) hlt hf1
    exact freshIds_mapLabels itf.id refs.labelIds hrep
  · have hi1 : itemIds (ls1.store.items.map (fun o => if o.id = itf.id then
        prepAssemble itf.id
          { applyScalars itf.toPending (exportScalarsWith it0 pd we sd) with
            location := refs.loc, purchase_currency := refs.pc,
            sold_currency := refs.sc, insured_currency := refs.ic } v2
      else o)) = itemIds ls1.store.items := by
      apply itemIds_mapSame
      intro o ho
      by_cases h : o.id = itf.id
      · rw [if_pos h]
        show itf.id = o.id
        exact h.symm
      · rw [if_neg h]
    have hi2 : itemIds ((ls1.store.items.map (fun o => if o.id = itf.id then
        prepAssemble itf.id
          { applyScalars itf.toPending (exportScalarsWith it0 pd we sd) with
            location := refs.loc, purchase_currency := refs.pc,
            sold_currency := refs.sc, insured_currency := refs.ic } v2
      else o)).map
        (fun o => if o.id = itf.id then { o with labels := refs.labelIds } else o)) =
        itemIds (ls1.store.items.map (fun o => if o.id = itf.id then
          prepAssemble itf.id
            { applyScalars itf.toPending (exportScalarsWith it0 pd we sd) with
              location := refs.loc, purchase_currency := refs.pc,
              sold_currency := refs.sc, insured_currency := refs.ic } v2
        else o)) := by
      apply itemIds_mapSame
      intro o ho
      by_cases h : o.id = itf.id
      · rw [if_pos h]
      · rw [if_neg h]
    rw [hrun]
    exact hi2.trans (hi1.trans (congrArg itemIds hro1.2.2.2.2.1))

/-- Importing the export records of a list of still-present items takes the
update path for every record: created-count is untouched, updated-count grows
by the record count, nothing fails and the item id population is unchanged. -/
theorem jsonLoop_export_update (st0 : Store) (its : List Item) : ∀ ls : LoopSt,
    ls.store.freshIds →
    (∀ it ∈ its, 0 ≤ it.quantity ∧ it.id ∈ itemIds ls.store.items) →
    (jsonLoop (its.map (exportJsonRecordOf st0)) ls).created = ls.created ∧
    (jsonLoop (its.map (exportJsonRecordOf st0)) ls).updated = ls.updated + its.length ∧
    (jsonLoop (its.map (exportJsonRecordOf st0)) ls).failed = ls.failed ∧
    (jsonLoop (its.map (exportJsonRecordOf st0)) ls).errors = ls.errors ∧
    (jsonLoop (its.map (exportJsonRecordOf st0)) ls).store.logs = ls.store.logs ∧
    (jsonLoop (its.map (exportJsonRecordOf st0)) ls).store.freshIds ∧
    itemIds (jsonLoop (its.map (exportJsonRecordOf st0)) ls).store.items =
      itemIds ls.store.items := by
  induction its with
  | nil =>
    intro ls hf _
    exact ⟨rfl, rfl, rfl, rfl, rfl, hf, rfl⟩
  | cons it rest ih =>
    intro ls hf hall
    have hstep : jsonLoop ((it :: rest).map (exportJsonRecordOf st0)) ls =
        jsonLoop (rest.map (exportJsonRecordOf st0))
          (runJsonRecord (exportJsonRecordOf st0 it) ls) := rfl
    obtain ⟨h1, h2, h3, h4, h5, h6, h7⟩ :=
      runJsonRecord_export_update st0 it ls hf (hall it (by simp)).1 (hall it (by simp)).2
    obtain ⟨g1, g2, g3, g4, g5, g6, g7⟩ :=
      ih (runJsonRecord (exportJsonRecordOf st0 it) ls) h6
        (fun it2 hit2 => ⟨(hall it2 (by simp [hit2])).1,
          by rw [h7]; exact (hall it2 (by simp [hit2])).2⟩)
    rw [hstep]
    refine ⟨g1.trans h1, ?_, g3.trans h3, g4.trans h4, g5.trans h5, g6, g7.trans h7⟩
    rw [g2, h2]
    simp only [List.length_cons]
    omega

/-- C4: re-importing a JSON export (ids present) into the store it came from
updates the existing items in place — created-count 0, updated-count equal to
the record count, no failures, and the item id population (hence its size)
unchanged — provided the stored quantities respect the CHECK constraint the
importer itself enforces. -/
theorem c4_json_reimport_updates (st : Store) (now now2 : Nat)
    (hf : st.freshIds) (hq : ∀ it ∈ st.items, 0 ≤ it.quantity) :
    (importJson (exportJson st now).2 st now2).created = 0 ∧
    (importJson (exportJson st now).2 st now2).updated = st.items.length ∧
    (importJson (exportJson st now).2 st now2).failed = 0 ∧
    itemIds (importJson (exportJson st now).2 st now2).store.items = itemIds st.items ∧
    (importJson (exportJson st now).2 st now2).store.items.length = st.items.length := by
  have hr : (exportJson st now).2 = st.items.map (exportJsonRecordOf st) := rfl
  rw [hr]
  by_cases hE : (st.items.map (exportJsonRecordOf st)).isEmpty = true
  · have hnil : st.items = [] := by
      rcases hi : st.items with _ | ⟨a, rest⟩
      · rfl
      · rw [hi] at hE
        simp [List.isEmpty] at hE
    unfold importJson
    rw [if_pos hE, hnil]
    exact ⟨rfl, rfl, rfl, rfl, rfl⟩
  · unfold importJson
    rw [if_neg hE]
    obtain ⟨g1, g2, g3, -, -, -, g7⟩ :=
      jsonLoop_export_update st st.items ⟨st, 0, 0, 0, []⟩ hf
        (fun it hit => ⟨hq it hit, List.mem_map_of_mem _ hit⟩)
    refine ⟨g1, ?_, g3, ?_, ?_⟩
    · show (jsonLoop (st.items.map (exportJsonRecordOf st))
        ⟨st, 0, 0, 0, []⟩).updated = st.items.length
      rw [g2]
      show 0 + st.items.length = st.items.length
      exact Nat.zero_add _
    · exact g7
    · have hlen := congrArg List.length g7
      simp only [itemIds, List.length_map] at hlen
      exact hlen

/-- Witness for C4 at a concrete one-item store: re-importing its JSON export
yields created 0, updated 1, failed 0 and still one item. -/
theorem c4_json_reimport_updates_witness :
    Store.freshIds wStore ∧ (∀ it ∈ wStore.items, 0 ≤ it.quantity) ∧
    (importJson (exportJson wStore 0).2 wStore 1).created = 0 ∧
    (importJson (exportJson wStore 0).2 wStore 1).updated = wStore.items.length ∧
    (importJson (exportJson wStore 0).2 wStore 1).failed = 0 ∧
    (importJson (exportJson wStore 0).2 wStore 1).store.items.length =
      wStore.items.length := by
  have hf : Store.freshIds wStore := by
    refine ⟨?_, ?_, ?_, ?_⟩ <;> intro x hx
    · simp [wStore] at hx
    · simp [wStore] at hx
    · simp [wStore] at hx
    · have hx' : x = wItem := by simpa [wStore] using hx
      subst hx'
      decide
  have hq : ∀ it ∈ wStore.items, 0 ≤ it.quantity := by
    intro it hit
    have hx' : it = wItem := by simpa [wStore] using hit
    subst hx'
    decide
  obtain ⟨h1, h2, h3, -, h5⟩ := c4_json_reimport_updates wStore 0 1 hf hq
  exact ⟨hf, hq, h1, h2, h3, h5⟩

end Homebox
